import Mathlib

/-!
lorawan_decode: a shallow embedding of the PHYPayload decoder.

The development follows `internel/decode/decode.go`.  Go values are embedded as follows.

* a `byte` is a `Fin 256`; a `uint8`, `uint32` that only widens is a `Nat`;
* a Go pointer field (`*T`, possibly `nil`) is an `Option T`;
* a Go `error` is an `Option String` (`none` is `nil`), and a function returning
  `(T, error)` returns the pair, because the callers store the first component even
  when the second is not `nil`;
* a run-time panic (index out of range) is the outer `none` of an `Option`.

The package `github.com/brocaar/lorawan` is outside the repository.  Its types are
declared in namespace `lorawan`; its frame parser is modelled from the specification
(sections 3, 4.1, 4.2, 4.3) and every such definition says so in its doc comment.
-/

/-- A Go `byte`. -/
abbrev Byte := Fin 256

/-! ## `encoding/hex` -/

namespace hex

/-- The digit table of `encoding/hex`: `"0123456789abcdef"`. -/
def hextable : List Char :=
  ['0', '1', '2', '3', '4', '5', '6', '7', '8', '9', 'a', 'b', 'c', 'd', 'e', 'f']

/-- The two digits of one byte: `hextable[v>>4]`, `hextable[v&0x0f]`. -/
def encodeByte (v : Byte) : List Char :=
  [hextable.getD (v.val >>> 4) '0', hextable.getD (v.val &&& 0x0f) '0']

/-- The digits of a byte slice, as a list of characters. -/
def encodeChars : List Byte → List Char
  | [] => []
  | v :: rest => encodeByte v ++ encodeChars rest

/-- Go `hex.EncodeToString`. -/
def EncodeToString (src : List Byte) : String := String.mk (encodeChars src)

/-- Go `fromHexChar` (the reverse table): the value of a hex digit, upper or lower case. -/
def fromHexChar (c : Char) : Option Nat :=
  if '0' ≤ c ∧ c ≤ '9' then some (c.toNat - '0'.toNat)
  else if 'a' ≤ c ∧ c ≤ 'f' then some (c.toNat - 'a'.toNat + 10)
  else if 'A' ≤ c ∧ c ≤ 'F' then some (c.toNat - 'A'.toNat + 10)
  else none

/-- Go `hex.Decode` over the characters of the text: the bytes decoded before the first
error, and the error if any (an invalid digit is reported before an odd length; the
message of an invalid digit is kept without the offending character). -/
def decodeChars : List Char → List Byte × Option String
  | [] => ([], none)
  | [p] =>
    match fromHexChar p with
    | none => ([], some "encoding/hex: invalid byte")
    | some _ => ([], some "encoding/hex: odd length hex string")
  | p :: q :: rest =>
    match fromHexChar p, fromHexChar q with
    | some a, some b =>
      let r := decodeChars rest
      (⟨(a <<< 4 ||| b) % 256, Nat.mod_lt _ (by decide)⟩ :: r.1, r.2)
    | _, _ => ([], some "encoding/hex: invalid byte")

/-- Go `hex.DecodeString`: returns the decoded prefix together with the error. -/
def DecodeString (s : String) : List Byte × Option String := decodeChars s.data

end hex

/-! ## `fmt` and `encoding/json` as far as the renderer uses them -/

namespace fmt

/-- The verb `%b` of `fmt.Sprintf` on an unsigned value: binary digits, no padding. -/
def binary (n : Nat) : String := String.mk (Nat.toDigits 2 n)

end fmt

namespace json

/-- The indentation unit passed to `json.MarshalIndent`: four spaces. -/
def indentUnit : String := "    "

/-- The indentation at a nesting depth (the prefix argument is empty). -/
def indentOf (depth : Nat) : String := String.join (List.replicate depth indentUnit)

/-- The escape of one character inside a JSON string, as `encoding/json` writes it with
HTML escaping on. -/
def escapeChar (c : Char) : List Char :=
  if c = '"' then ['\\', '"']
  else if c = '\\' then ['\\', '\\']
  else if c = '\n' then ['\\', 'n']
  else if c = '\r' then ['\\', 'r']
  else if c = '\t' then ['\\', 't']
  else if c = '<' then "\\u003c".data
  else if c = '>' then "\\u003e".data
  else if c = '&' then "\\u0026".data
  else if c.toNat = 0x2028 then "\\u2028".data
  else if c.toNat = 0x2029 then "\\u2029".data
  else if c.toNat < 0x20 then
    "\\u00".data ++ [hex.hextable.getD (c.toNat >>> 4) '0', hex.hextable.getD (c.toNat &&& 0x0f) '0']
  else [c]

/-- A Go string as a JSON string literal. -/
def quote (s : String) : String :=
  String.mk ('"' :: (s.data.flatMap escapeChar ++ ['"']))

/-- A Go unsigned integer as a JSON number. -/
def number (n : Nat) : String := toString n

/-- A Go bool as a JSON literal. -/
def bool (b : Bool) : String := if b then "true" else "false"

/-- One `"key": value` line of an indented object. -/
def member (depth : Nat) (kv : String × String) : String :=
  indentOf (depth + 1) ++ quote kv.1 ++ ": " ++ kv.2

/-- An object written by `json.MarshalIndent` at nesting depth `depth`; the values of
`fields` are already rendered at depth `depth + 1`.  An object without members is `{}`. -/
def object (depth : Nat) (fields : List (String × String)) : String :=
  if fields.isEmpty then "{}"
  else "\x7b\n" ++ String.intercalate ",\n" (fields.map (member depth)) ++ "\n"
    ++ indentOf depth ++ "\x7d"

/-- A struct field tagged `omitempty` holding a pointer: no member when `nil`. -/
def omitNil {α : Type} (key : String) (render : α → String) : Option α → List (String × String)
  | none => []
  | some a => [(key, render a)]

end json

/-! ## The types of `github.com/brocaar/lorawan` that the decoder reads -/

namespace lorawan

/-- Modelled from the spec: the message type of the external package, a byte-sized
enumeration of 8 kinds (section 3); Go `type MType byte`. -/
abbrev MType := Nat

/-- Modelled from the spec: the protocol major version of the external package
(section 3); Go `type Major byte`. -/
abbrev Major := Nat

/-- Modelled from the spec: the constant `lorawan.JoinRequest`, header bits 000. -/
def JoinRequest : MType := 0

/-- Modelled from the spec: the constant `lorawan.JoinAccept`, header bits 001. -/
def JoinAccept : MType := 1

/-- Modelled from the spec: the constant `lorawan.UnconfirmedDataUp`, header bits 010. -/
def UnconfirmedDataUp : MType := 2

/-- Modelled from the spec: the constant `lorawan.UnconfirmedDataDown`, header bits 011. -/
def UnconfirmedDataDown : MType := 3

/-- Modelled from the spec: the constant `lorawan.ConfirmedDataUp`, header bits 100. -/
def ConfirmedDataUp : MType := 4

/-- Modelled from the spec: the constant `lorawan.ConfirmedDataDown`, header bits 101. -/
def ConfirmedDataDown : MType := 5

/-- Modelled from the spec: the constant `lorawan.RejoinRequest`, header bits 110. -/
def RejoinRequest : MType := 6

/-- Modelled from the spec: the constant `lorawan.Proprietary`, header bits 111. -/
def Proprietary : MType := 7

/-- Modelled from the spec: the fixed lookup table of the header classifier (section 4.2),
which is part of the external package; the index is the 3-bit message-type field. -/
def mtypeTable : List MType :=
  [JoinRequest, JoinAccept, UnconfirmedDataUp, UnconfirmedDataDown,
   ConfirmedDataUp, ConfirmedDataDown, RejoinRequest, Proprietary]

/-- Modelled from the spec: the display string of a message type (`MType.String()` of the
external package), one name per enumerated kind. -/
def MType.String (m : MType) : String :=
  if m = JoinRequest then "JoinRequest"
  else if m = JoinAccept then "JoinAccept"
  else if m = UnconfirmedDataUp then "UnconfirmedDataUp"
  else if m = UnconfirmedDataDown then "UnconfirmedDataDown"
  else if m = ConfirmedDataUp then "ConfirmedDataUp"
  else if m = ConfirmedDataDown then "ConfirmedDataDown"
  else if m = RejoinRequest then "RejoinRequest"
  else if m = Proprietary then "Proprietary"
  else "MType(" ++ toString m ++ ")"

/-- Modelled from the spec: the display string of the protocol version (`Major.String()`
of the external package). -/
def Major.String (m : Major) : String :=
  if m = 0 then "LoRaWANR1" else "Major(" ++ toString m ++ ")"

/-- Modelled from the spec: the header of the external package, message type and protocol
major version, derived from byte 0 (section 3). -/
structure MHDR where
  MType : MType := 0
  Major : Major := 0
  deriving DecidableEq, Repr

/-- Modelled from the spec: the frame-control flags of the external package (section 3),
with the unexported options length. -/
structure FCtrl where
  ADR : Bool := false
  ADRACKReq : Bool := false
  ACK : Bool := false
  FPending : Bool := false
  ClassB : Bool := false
  fOptsLen : Nat := 0
  deriving DecidableEq, Repr

/-- Modelled from the spec: the MAC frame header of the external package (section 3).
`DevAddr` is held in display (big-endian) order.  An element of `FOpts` is a `Payload` of
which the decoder only calls `MarshalBinary`; it is represented by the bytes that call
returns. -/
structure FHDR where
  DevAddr : List Byte := []
  FCtrl : FCtrl := {}
  FCnt : Nat := 0
  FOpts : List (List Byte) := []
  deriving DecidableEq, Repr

/-- Modelled from the spec: the MAC payload of the external package (section 3); `FPort`
is a `*uint8`, the elements of `FRMPayload` are represented like those of `FOpts`. -/
structure MACPayload where
  FHDR : FHDR := {}
  FPort : Option Byte := none
  FRMPayload : List (List Byte) := []
  deriving DecidableEq, Repr

/-- Modelled from the spec: the join-request record of the external package (section 3);
the EUIs are held in display (big-endian) order, the nonce as a 16-bit number. -/
structure JoinRequestPayload where
  JoinEUI : List Byte := []
  DevEUI : List Byte := []
  DevNonce : Nat := 0
  deriving DecidableEq, Repr

/-- Modelled from the spec: the join-accept record of the external package (section 3);
`DLSettings` is held as its wire byte, `CFList` is a pointer. -/
structure JoinAcceptPayload where
  JoinNonce : Nat := 0
  HomeNetID : List Byte := []
  DevAddr : List Byte := []
  DLSettings : Byte := 0
  RXDelay : Nat := 0
  CFList : Option (List Byte) := none
  deriving DecidableEq, Repr

/-- Modelled from the spec: the interface `Payload` of the external package, held by
`PHYPayload.MACPayload`: the dynamic types the decoder asserts, an opaque `DataPayload`,
and the `nil` interface. -/
inductive Payload where
  | nil
  | JoinRequestPayload (j : JoinRequestPayload)
  | JoinAcceptPayload (j : JoinAcceptPayload)
  | MACPayload (m : MACPayload)
  | DataPayload (bytes : List Byte)
  deriving DecidableEq, Repr

/-- Modelled from the spec: the parsed frame of the external package: header, payload
and the 4-byte integrity check (section 3). -/
structure PHYPayload where
  MHDR : MHDR := {}
  MACPayload : Payload := Payload.nil
  MIC : List Byte := []
  deriving DecidableEq, Repr

/-- Modelled from the spec: a little-endian unsigned integer read from wire bytes
(section 4.3, "little-endian on the wire"). -/
def leUint : List Byte → Nat
  | [] => 0
  | b :: rest => b.val + 256 * leUint rest

/-- Modelled from the spec: the `k` little-endian wire bytes of an unsigned integer. -/
def leBytes : Nat → Nat → List Byte
  | 0, _ => []
  | k + 1, n => ⟨n % 256, Nat.mod_lt _ (by decide)⟩ :: leBytes k (n / 256)

/-- Modelled from the spec: `EUI64.String()`, `DevAddr.String()`, `NetID.String()` and
`MIC.String()` of the external package: the hex of the array as held in memory, which
for EUIs and addresses is the reverse of the wire order (section 4.3). -/
def arrayString (a : List Byte) : String := hex.EncodeToString a

/-- Modelled from the spec: `DevNonce.MarshalBinary()` of the external package, whose
bytes the decoder shows as hex.  Section 4.3 has the device nonce little-endian on the
wire and rendered as a big-endian hex string, the display convention of the EUIs; so these
are the two bytes of the nonce in display order, the reverse of the wire order. -/
def DevNonce.MarshalBinary (n : Nat) : List Byte := (leBytes 2 n).reverse

/-- Modelled from the spec: `JoinNonce.MarshalBinary()` of the external package: the
three wire bytes of the nonce, little-endian (section 4.3). -/
def JoinNonce.MarshalBinary (n : Nat) : List Byte := leBytes 3 n

/-- Modelled from the spec: `DLSettings.MarshalBinary()` of the external package: the
downlink-settings byte (section 3). -/
def DLSettings.MarshalBinary (b : Byte) : List Byte := [b]

/-- Modelled from the spec: `CFList.MarshalBinary()` of the external package: the
sixteen bytes of the channel-frequency list (section 3). -/
def CFList.MarshalBinary (l : List Byte) : List Byte := l

/-- Modelled from the spec: the header classifier (section 4.2) of the external package.
Message type = bits 7-5 through the lookup table, an unmapped pattern fails with
`UnknownMessageType`; protocol version = bits 1-0. -/
def MHDR.UnmarshalBinary (h : Byte) : Except String MHDR :=
  match mtypeTable.get? (h.val >>> 5) with
  | none => .error "UnknownMessageType"
  | some t => .ok { MType := t, Major := h.val &&& 3 }

/-- Modelled from the spec: the frame-control byte (section 4.3).  ADR is bit 7, ACK bit 5,
the options length bits 3-0; for an uplink bit 6 is ADR-ack-request and bit 4 class-B, for
a downlink bit 6 is frame-pending, bit 4 is unused and the two uplink flags are never
populated. -/
def FCtrl.UnmarshalBinary (uplink : Bool) (b : Byte) : FCtrl :=
  { ADR := b.val &&& 0x80 != 0
    ADRACKReq := uplink && (b.val &&& 0x40 != 0)
    ACK := b.val &&& 0x20 != 0
    FPending := !uplink && (b.val &&& 0x40 != 0)
    ClassB := uplink && (b.val &&& 0x10 != 0)
    fOptsLen := b.val &&& 0x0f }

/-- Modelled from the spec: the join-request layout (section 4.3): join-EUI (8 bytes),
device-EUI (8 bytes), device-nonce (2 bytes), little-endian on the wire; a body too short
for the layout fails with `MalformedFrame`. -/
def JoinRequestPayload.UnmarshalBinary (body : List Byte) : Except String JoinRequestPayload :=
  if body.length < 18 then .error "MalformedFrame"
  else .ok
    { JoinEUI := (body.take 8).reverse
      DevEUI := ((body.drop 8).take 8).reverse
      DevNonce := leUint ((body.drop 16).take 2) }

/-- Modelled from the spec: the join-accept layout (section 4.3): join-nonce (3 bytes),
home-network-id (3), device-address (4), downlink-settings (1), receive-delay (1), then
the channel-frequency list (16 bytes) only if the remaining body length permits. -/
def JoinAcceptPayload.UnmarshalBinary (body : List Byte) : Except String JoinAcceptPayload :=
  if body.length < 12 then .error "MalformedFrame"
  else .ok
    { JoinNonce := leUint (body.take 3)
      HomeNetID := ((body.drop 3).take 3).reverse
      DevAddr := ((body.drop 6).take 4).reverse
      DLSettings := body.getD 10 0
      RXDelay := (body.getD 11 0).val
      CFList := if 16 ≤ body.length - 12 then some ((body.drop 12).take 16) else none }

/-- Modelled from the spec: the data layout (section 4.3): device-address (4 bytes),
frame-control (1), frame-counter (2), frame-options (options-length bytes, opaque),
optional port (1), the remaining bytes as opaque frame payload.  Fails with
`MalformedFrame` when the fixed header or the declared options do not fit the body. -/
def MACPayload.UnmarshalBinary (uplink : Bool) (body : List Byte) : Except String MACPayload :=
  if body.length < 7 then .error "MalformedFrame"
  else
    let fctrl := FCtrl.UnmarshalBinary uplink (body.getD 4 0)
    if body.length < 7 + fctrl.fOptsLen then .error "MalformedFrame"
    else
      let fopts := (body.drop 7).take fctrl.fOptsLen
      let rest := body.drop (7 + fctrl.fOptsLen)
      .ok
        { FHDR :=
            { DevAddr := (body.take 4).reverse
              FCtrl := fctrl
              FCnt := leUint ((body.drop 5).take 2)
              FOpts := if fopts.isEmpty then [] else [fopts] }
          FPort := rest.head?
          FRMPayload := if rest.tail.isEmpty then [] else [rest.tail] }

/-- Modelled from the spec: the frame reader (section 4.1) of the external package
(`PHYPayload.UnmarshalBinary`).  A frame shorter than the minimum size of 12 bytes fails
with `MalformedFrame`; otherwise the input is split into the header byte, the body and
the trailing 4-byte integrity field, the header is classified, and the body is laid out
by message type.  Rejoin-request and proprietary bodies have no layout and stay opaque. -/
def PHYPayload.UnmarshalBinary (data : List Byte) : Except String PHYPayload :=
  if data.length < 12 then .error "MalformedFrame"
  else
    match data with
    | [] => .error "MalformedFrame"
    | h :: rest =>
      let body := rest.take (rest.length - 4)
      let mic := rest.drop (rest.length - 4)
      match MHDR.UnmarshalBinary h with
      | .error e => .error e
      | .ok mhdr =>
        let payload : Except String Payload :=
          if mhdr.MType = JoinRequest then
            (JoinRequestPayload.UnmarshalBinary body).map Payload.JoinRequestPayload
          else if mhdr.MType = JoinAccept then
            (JoinAcceptPayload.UnmarshalBinary body).map Payload.JoinAcceptPayload
          else if mhdr.MType = UnconfirmedDataUp ∨ mhdr.MType = ConfirmedDataUp then
            (MACPayload.UnmarshalBinary true body).map Payload.MACPayload
          else if mhdr.MType = UnconfirmedDataDown ∨ mhdr.MType = ConfirmedDataDown then
            (MACPayload.UnmarshalBinary false body).map Payload.MACPayload
          else .ok (Payload.DataPayload body)
        match payload with
        | .error e => .error e
        | .ok pl => .ok { MHDR := mhdr, MACPayload := pl, MIC := mic }

end lorawan

/-! ## Package `decode` (`internel/decode/decode.go`) -/

namespace decode

/-- Go `MHDR`: the decoded header. -/
structure MHDR where
  MType : String := ""
  RFU : String := ""
  Major : String := ""
  deriving DecidableEq, Repr

/-- Go `FCtrl`: the decoded frame control; the three direction flags are pointers. -/
structure FCtrl where
  ADR : Bool := false
  RFU : Option String := none
  ADRACKReq : Option Bool := none
  ACK : Bool := false
  FPending : Option Bool := none
  ClassB : Option Bool := none
  FOptsLen : Nat := 0
  deriving DecidableEq, Repr

/-- Go `FOpts`. -/
structure FOpts where
  Payload : String := ""
  deriving DecidableEq, Repr

/-- Go `FHDR`. -/
structure FHDR where
  DevAddr : String := ""
  FCtrl : FCtrl := {}
  FCnt : Nat := 0
  FOpts : FOpts := {}
  deriving DecidableEq, Repr

/-- Go `MACPayload`; `FPort` is a plain `uint32`. -/
structure MACPayload where
  FHDR : FHDR := {}
  FPort : Nat := 0
  FRMPayload : String := ""
  deriving DecidableEq, Repr

/-- Go `JoinRequest`. -/
structure JoinRequest where
  AppEUI : String := ""
  DevEUI : String := ""
  DevNonce : String := ""
  deriving DecidableEq, Repr

/-- Go `JoinAccept`. -/
structure JoinAccept where
  AppNonce : String := ""
  NetID : String := ""
  DevAddr : String := ""
  DLSetting : String := ""
  RxDelay : Nat := 0
  CFList : Option String := none
  deriving DecidableEq, Repr

/-- Go `PHYPayload`: the decoded record; the three sub-records are pointers. -/
structure PHYPayload where
  MHDR : MHDR := {}
  MACPayload : Option MACPayload := none
  JoinRequest : Option JoinRequest := none
  JoinAccept : Option JoinAccept := none
  MIC : String := ""
  deriving DecidableEq, Repr

/-- Go `Content`. -/
structure Content where
  PHYPayload : PHYPayload := {}
  RawPacket : List Byte := []
  deriving DecidableEq, Repr

/-- Go `decodeJoinRequest`. -/
def decodeJoinRequest (p : lorawan.PHYPayload) : JoinRequest × Option String :=
  match p.MACPayload with
  | lorawan.Payload.JoinRequestPayload joinRequest =>
    let devNonce := lorawan.DevNonce.MarshalBinary joinRequest.DevNonce
    ({ AppEUI := lorawan.arrayString joinRequest.JoinEUI
       DevEUI := lorawan.arrayString joinRequest.DevEUI
       DevNonce := hex.EncodeToString devNonce }, none)
  | _ => ({}, some "lorawan: MACPayload value must be of type *JoinRequestPayload")

/-- Go `decodeJoinAccept`. -/
def decodeJoinAccept (p : lorawan.PHYPayload) : JoinAccept × Option String :=
  match p.MACPayload with
  | lorawan.Payload.JoinAcceptPayload joinAccept =>
    let appNonce := lorawan.JoinNonce.MarshalBinary joinAccept.JoinNonce
    let DLSetting := lorawan.DLSettings.MarshalBinary joinAccept.DLSettings
    let cfList : Option String :=
      match joinAccept.CFList with
      | some l => some (hex.EncodeToString (lorawan.CFList.MarshalBinary l))
      | none => none
    ({ AppNonce := hex.EncodeToString appNonce
       NetID := lorawan.arrayString joinAccept.HomeNetID
       DevAddr := lorawan.arrayString joinAccept.DevAddr
       DLSetting := hex.EncodeToString DLSetting
       RxDelay := joinAccept.RXDelay
       CFList := cfList }, none)
  | _ => ({}, some "lorawan: MACPayload value must be of type *JoinAcceptPayload")

/-- The loop `for _, x := range items { b, _ := x.MarshalBinary(); out = append(out, b...) }`. -/
def appendAll (items : List (List Byte)) : List Byte :=
  items.foldl (fun out b => out ++ b) []

/-- Go `decodeUplinkMACPayload`. -/
def decodeUplinkMACPayload (p : lorawan.PHYPayload) : MACPayload × Option String :=
  match p.MACPayload with
  | lorawan.Payload.MACPayload m =>
    let fport : Nat :=
      match m.FPort with
      | some v => v.val
      | none => 0
    let fopts := appendAll m.FHDR.FOpts
    let frmPayload := appendAll m.FRMPayload
    ({ FPort := fport
       FHDR :=
         { DevAddr := lorawan.arrayString m.FHDR.DevAddr
           FCnt := m.FHDR.FCnt
           FCtrl :=
             { ADR := m.FHDR.FCtrl.ADR
               ADRACKReq := some m.FHDR.FCtrl.ADRACKReq
               ACK := m.FHDR.FCtrl.ACK
               ClassB := some m.FHDR.FCtrl.ClassB }
           FOpts := { Payload := hex.EncodeToString fopts } }
       FRMPayload := hex.EncodeToString frmPayload }, none)
  | _ => ({}, some "lorawan: MACPayload value must be of type *MACPayload")

/-- Go `decodeDownlinkMACPayload`. -/
def decodeDownlinkMACPayload (p : lorawan.PHYPayload) : MACPayload × Option String :=
  match p.MACPayload with
  | lorawan.Payload.MACPayload m =>
    let fport : Nat :=
      match m.FPort with
      | some v => v.val
      | none => 0
    let fopts := appendAll m.FHDR.FOpts
    let frmPayload := appendAll m.FRMPayload
    ({ FPort := fport
       FHDR :=
         { DevAddr := lorawan.arrayString m.FHDR.DevAddr
           FCnt := m.FHDR.FCnt
           FCtrl :=
             { ADR := m.FHDR.FCtrl.ADR
               ACK := m.FHDR.FCtrl.ACK
               FPending := some m.FHDR.FCtrl.FPending }
           FOpts := { Payload := hex.EncodeToString fopts } }
       FRMPayload := hex.EncodeToString frmPayload }, none)
  | _ => ({}, some "lorawan: MACPayload value must be of type *MACPayload")

/-- The four assignments that open `decodePHYPayload`, given the first raw byte. -/
def setHeader (c : Content) (p : lorawan.PHYPayload) (b0 : Byte) : Content :=
  { c with
    PHYPayload :=
      { c.PHYPayload with
        MHDR :=
          { MType := lorawan.MType.String p.MHDR.MType
            RFU := fmt.binary ((b0.val &&& 0x1c) >>> 2)
            Major := lorawan.Major.String p.MHDR.Major }
        MIC := lorawan.arrayString p.MIC } }

/-- Go `(*Content).decodePHYPayload`: the new content and the returned error; the outer
`none` is the panic of `c.RawPacket[0]` on an empty packet. -/
def decodePHYPayload (c : Content) (p : lorawan.PHYPayload) : Option (Content × Option String) :=
  match c.RawPacket with
  | [] => none
  | b0 :: _ =>
    let c := setHeader c p b0
    if p.MHDR.MType = lorawan.JoinRequest then
      let r := decodeJoinRequest p
      some ({ c with PHYPayload := { c.PHYPayload with JoinRequest := some r.1 } }, r.2)
    else if p.MHDR.MType = lorawan.JoinAccept then
      let r := decodeJoinAccept p
      some ({ c with PHYPayload := { c.PHYPayload with JoinAccept := some r.1 } }, r.2)
    else if p.MHDR.MType = lorawan.UnconfirmedDataUp ∨ p.MHDR.MType = lorawan.ConfirmedDataUp then
      let r := decodeUplinkMACPayload p
      some ({ c with PHYPayload := { c.PHYPayload with MACPayload := some r.1 } }, r.2)
    else if p.MHDR.MType = lorawan.UnconfirmedDataDown
        ∨ p.MHDR.MType = lorawan.ConfirmedDataDown then
      let r := decodeDownlinkMACPayload p
      some ({ c with PHYPayload := { c.PHYPayload with MACPayload := some r.1 } }, r.2)
    else if p.MHDR.MType = lorawan.RejoinRequest then
      some (c, some "not support rejoin_request packet")
    else if p.MHDR.MType = lorawan.Proprietary then
      some (c, some "not support proprietary packet")
    else
      some (c, some "unknown packet")

/-- The JSON of `MHDR` at a nesting depth. -/
def MHDR.marshal (depth : Nat) (m : MHDR) : String :=
  json.object depth
    [("MType", json.quote m.MType), ("RFU", json.quote m.RFU), ("Major", json.quote m.Major)]

/-- The JSON of `FCtrl`: the four pointer fields are `omitempty`. -/
def FCtrl.marshal (depth : Nat) (f : FCtrl) : String :=
  json.object depth
    ([("ADR", json.bool f.ADR)]
      ++ json.omitNil "RFU" json.quote f.RFU
      ++ json.omitNil "ADRACKReq" json.bool f.ADRACKReq
      ++ [("ACK", json.bool f.ACK)]
      ++ json.omitNil "FPending" json.bool f.FPending
      ++ json.omitNil "ClassB" json.bool f.ClassB
      ++ [("FoptsLen", json.number f.FOptsLen)])

/-- The JSON of `FOpts`: `Payload` is `omitempty`, so an empty string gives `{}`. -/
def FOpts.marshal (depth : Nat) (f : FOpts) : String :=
  json.object depth (if f.Payload = "" then [] else [("Payload", json.quote f.Payload)])

/-- The JSON of `FHDR`; the device address carries the tag `DevEUI`. -/
def FHDR.marshal (depth : Nat) (f : FHDR) : String :=
  json.object depth
    [("DevEUI", json.quote f.DevAddr), ("FCtrl", FCtrl.marshal (depth + 1) f.FCtrl),
     ("FCnt", json.number f.FCnt), ("FOpts", FOpts.marshal (depth + 1) f.FOpts)]

/-- The JSON of `MACPayload`. -/
def MACPayload.marshal (depth : Nat) (m : MACPayload) : String :=
  json.object depth
    [("FHDR", FHDR.marshal (depth + 1) m.FHDR), ("FPort", json.number m.FPort),
     ("FRMPayload", json.quote m.FRMPayload)]

/-- The JSON of `JoinRequest`. -/
def JoinRequest.marshal (depth : Nat) (j : JoinRequest) : String :=
  json.object depth
    [("AppEUI", json.quote j.AppEUI), ("DevEUI", json.quote j.DevEUI),
     ("DevNonce", json.quote j.DevNonce)]

/-- The JSON of `JoinAccept`; `CFList` is `omitempty`. -/
def JoinAccept.marshal (depth : Nat) (j : JoinAccept) : String :=
  json.object depth
    ([("AppNonce", json.quote j.AppNonce), ("NetID", json.quote j.NetID),
      ("DevAddr", json.quote j.DevAddr), ("DLSetting", json.quote j.DLSetting),
      ("RxDelay", json.number j.RxDelay)]
      ++ json.omitNil "CFList" json.quote j.CFList)

/-- The JSON of `PHYPayload`, i.e. `json.MarshalIndent(c.PHYPayload, "", "    ")`. -/
def PHYPayload.marshal (p : PHYPayload) : String :=
  json.object 0
    ([("MHDR", MHDR.marshal 1 p.MHDR)]
      ++ json.omitNil "MACPayload" (MACPayload.marshal 1) p.MACPayload
      ++ json.omitNil "JoinRequest" (JoinRequest.marshal 1) p.JoinRequest
      ++ json.omitNil "JoinAccept" (JoinAccept.marshal 1) p.JoinAccept
      ++ [("MIC", json.quote p.MIC)])

/-- Go `(*Content).String`. -/
def Content.String (c : Content) : String :=
  let raw := hex.EncodeToString c.RawPacket
  let pkt := PHYPayload.marshal c.PHYPayload
  "Raw PHYPayload: " ++ raw ++ "\nContent: " ++ pkt ++ "\n"

/-- Go `PHYPayloadMarshalToText`: the returned text and error; the outer `none` is a
panic.  The call `p.UnmarshalBinary(phypayload)` into the external package is the
parameter `unmarshal`. -/
def PHYPayloadMarshalToText (unmarshal : List Byte → Except String lorawan.PHYPayload)
    (phypayload : List Byte) : Option (String × Option String) :=
  let content : Content := { RawPacket := phypayload }
  match unmarshal phypayload with
  | .error err => some ("", some err)
  | .ok p =>
    match decodePHYPayload content p with
    | none => none
    | some (content, err) =>
      match err with
      | some e => some ("", some e)
      | none => some (content.String, none)

end decode

/-! ## Package `ui` (`internel/ui/ui.go`) -/

namespace ui

/-- Go `strings.Replace(s, "\r\n", "\n", -1)` on the characters of the text. -/
def crlfToLf : List Char → List Char
  | '\r' :: '\n' :: rest => '\n' :: crlfToLf rest
  | c :: rest => c :: crlfToLf rest
  | [] => []

/-- Go `strings.Replace(s, "\n", "\r\n", -1)` on the characters of the text. -/
def lfToCrlf : List Char → List Char
  | '\n' :: rest => '\r' :: '\n' :: lfToCrlf rest
  | c :: rest => c :: lfToCrlf rest
  | [] => []

/-- Go `run`: the click handler on the input text `inTe.Text()`.  The result lists the
arguments of the calls `outTe.SetText`, in order; the output area finally shows the last
one.  The outer `none` is a panic inside the decoder.  The first `if` sets the error text
and falls through to the second statement. -/
def run (unmarshal : List Byte → Except String lorawan.PHYPayload) (inText : String) :
    Option (List String) :=
  let r := hex.DecodeString inText
  let b := r.1
  let shown : List String :=
    match r.2 with
    | some e => ["decode error " ++ e ++ "\n"]
    | none => []
  match decode.PHYPayloadMarshalToText unmarshal b with
  | none => none
  | some (content, err) =>
    match err with
    | some e => some (shown ++ ["decode error " ++ e ++ "\n"])
    | none => some (shown ++ [String.mk (lfToCrlf (crlfToLf content.data))])

end ui

/-! ## Lemmas on hex text -/

namespace hex

theorem fromHexChar_hextable (n : Fin 16) : fromHexChar (hextable.getD n.val '0') = some n.val := by
  revert n
  decide

set_option maxRecDepth 100000 in
theorem nibbles_join (v : Byte) : ((v.val >>> 4) <<< 4 ||| (v.val &&& 0x0f)) % 256 = v.val := by
  revert v
  decide

set_option maxRecDepth 100000 in
theorem high_nibble_lt (v : Byte) : v.val >>> 4 < 16 := by
  revert v
  decide

set_option maxRecDepth 100000 in
theorem low_nibble_lt (v : Byte) : v.val &&& 0x0f < 16 := by
  revert v
  decide

theorem decodeChars_encodeByte (v : Byte) (rest : List Char) :
    decodeChars (encodeByte v ++ rest) = (v :: (decodeChars rest).1, (decodeChars rest).2) := by
  have hhi := fromHexChar_hextable ⟨v.val >>> 4, high_nibble_lt v⟩
  have hlo := fromHexChar_hextable ⟨v.val &&& 0x0f, low_nibble_lt v⟩
  simp only at hhi hlo
  simp only [encodeByte, List.cons_append, List.nil_append, decodeChars, hhi, hlo]
  congr 2
  exact Fin.ext (nibbles_join v)

theorem decodeChars_encodeChars (b : List Byte) : decodeChars (encodeChars b) = (b, none) := by
  induction b with
  | nil => rfl
  | cons v rest ih => rw [encodeChars, decodeChars_encodeByte, ih]

theorem DecodeString_EncodeToString (b : List Byte) :
    DecodeString (EncodeToString b) = (b, none) := by
  simp only [DecodeString, EncodeToString, decodeChars_encodeChars]

end hex

/-! ## Sample frames -/

namespace decode

/-- A 23-byte join-request frame. -/
def sampleJoinRequest : List Byte :=
  [0x00, 0x01, 0x02, 0x03, 0x04, 0x05, 0x06, 0x07, 0x08, 0x11, 0x12, 0x13, 0x14, 0x15, 0x16,
   0x17, 0x18, 0xaa, 0xbb, 0xde, 0xad, 0xbe, 0xef]

/-- The text the decoder returns for `sampleJoinRequest`. -/
def sampleJoinRequestText : String :=
  "Raw PHYPayload: 0001020304050607081112131415161718aabbdeadbeef\nContent: \x7b\n    \"MHDR\": \x7b\n        \"MType\": \"JoinRequest\",\n        \"RFU\": \"0\",\n        \"Major\": \"LoRaWANR1\"\n    \x7d,\n    \"JoinRequest\": \x7b\n        \"AppEUI\": \"0807060504030201\",\n        \"DevEUI\": \"1817161514131211\",\n        \"DevNonce\": \"bbaa\"\n    \x7d,\n    \"MIC\": \"deadbeef\"\n\x7d\n"

/-! ## Lemmas on the decoder -/

theorem decodePHYPayload_raw (c c' : Content) (p : lorawan.PHYPayload) (e : Option String)
    (h : decodePHYPayload c p = some (c', e)) : c'.RawPacket = c.RawPacket := by
  unfold decodePHYPayload at h
  cases hr : c.RawPacket with
  | nil => simp [hr] at h
  | cons b0 rest =>
    simp only [hr] at h
    split_ifs at h <;> simp only [Option.some.injEq, Prod.mk.injEq] at h <;>
      (obtain ⟨hc, -⟩ := h; subst hc; simp [setHeader, hr])

theorem decodePHYPayload_total (c : Content) (p : lorawan.PHYPayload) (b0 : Byte)
    (rest : List Byte) (h : c.RawPacket = b0 :: rest) : ∃ r, decodePHYPayload c p = some r := by
  unfold decodePHYPayload
  simp only [h]
  split_ifs <;> exact ⟨_, rfl⟩

theorem encodeChars_lower (b : List Byte) : ∀ ch ∈ hex.encodeChars b, ch ∈ hex.hextable := by
  induction b with
  | nil => simp [hex.encodeChars]
  | cons v rest ih =>
    intro ch hch
    simp only [hex.encodeChars, hex.encodeByte, List.cons_append, List.nil_append,
      List.mem_cons] at hch
    rcases hch with h | h | h
    · subst h
      have := hex.high_nibble_lt v
      simp only [hex.hextable]
      interval_cases (v.val >>> 4) <;> simp
    · subst h
      have := hex.low_nibble_lt v
      simp only [hex.hextable]
      interval_cases (v.val &&& 0x0f) <;> simp
    · exact ih ch h

theorem UnmarshalBinary_short (b : List Byte) (h : b.length < 12) :
    lorawan.PHYPayload.UnmarshalBinary b = .error "MalformedFrame" := by
  simp [lorawan.PHYPayload.UnmarshalBinary, h]

/-! ## Claims -/

/-- C1: every byte sequence shorter than 12 bytes, the empty one included and whatever its
header byte, makes `PHYPayloadMarshalToText` return an error and the empty text. -/
theorem short_frame_rejected (b : List Byte) (h : b.length < 12) :
    PHYPayloadMarshalToText lorawan.PHYPayload.UnmarshalBinary b
      = some ("", some "MalformedFrame") := by
  unfold PHYPayloadMarshalToText
  rw [UnmarshalBinary_short b h]

theorem short_frame_rejected_witness :
    PHYPayloadMarshalToText lorawan.PHYPayload.UnmarshalBinary
        [0xe0, 0x01, 0x02, 0x03, 0x04, 0x05, 0x06, 0x07, 0x08, 0x09, 0x0a]
      = some ("", some "MalformedFrame") :=
  short_frame_rejected [0xe0, 0x01, 0x02, 0x03, 0x04, 0x05, 0x06, 0x07, 0x08, 0x09, 0x0a]
    (by decide)

/-- C2: when `PHYPayloadMarshalToText` succeeds on `b`, whatever the frame parser, the text
begins with "Raw PHYPayload: ", the lowercase hex of `b` and a newline, and hex-decoding
that hex text gives back `b` without error. -/
theorem raw_display_round_trip (unmarshal : List Byte → Except String lorawan.PHYPayload)
    (b : List Byte) (text : String)
    (h : PHYPayloadMarshalToText unmarshal b = some (text, none)) :
    (∃ rest, text = "Raw PHYPayload: " ++ hex.EncodeToString b ++ "\n" ++ rest)
      ∧ (∀ ch ∈ (hex.EncodeToString b).data, ch ∈ "0123456789abcdef".data)
      ∧ hex.DecodeString (hex.EncodeToString b) = (b, none) := by
  refine ⟨?_, encodeChars_lower b, hex.DecodeString_EncodeToString b⟩
  unfold PHYPayloadMarshalToText at h
  cases hu : unmarshal b with
  | error err => simp [hu] at h
  | ok p =>
    simp only [hu] at h
    cases hd : decodePHYPayload { RawPacket := b } p with
    | none => simp [hd] at h
    | some r =>
      obtain ⟨c', e⟩ := r
      have hraw := decodePHYPayload_raw _ _ _ _ hd
      simp only [hd] at h
      cases e with
      | some e => simp at h
      | none =>
        simp only [Option.some.injEq, Prod.mk.injEq, and_true] at h
        refine ⟨"Content: " ++ PHYPayload.marshal c'.PHYPayload ++ "\n", ?_⟩
        rw [← h, Content.String, hraw]
        simp only [String.append_assoc]
        rfl

set_option maxRecDepth 1000000 in
theorem raw_display_round_trip_witness :
    PHYPayloadMarshalToText lorawan.PHYPayload.UnmarshalBinary sampleJoinRequest
        = some (sampleJoinRequestText, none)
      ∧ (∃ rest, sampleJoinRequestText
          = "Raw PHYPayload: " ++ hex.EncodeToString sampleJoinRequest ++ "\n" ++ rest)
      ∧ (∀ ch ∈ (hex.EncodeToString sampleJoinRequest).data, ch ∈ "0123456789abcdef".data)
      ∧ hex.DecodeString (hex.EncodeToString sampleJoinRequest) = (sampleJoinRequest, none) :=
  ⟨by decide, raw_display_round_trip lorawan.PHYPayload.UnmarshalBinary sampleJoinRequest
    sampleJoinRequestText (by decide)⟩

/-- C3: a frame whose header selects Rejoin-Request (110) or Proprietary (111) is refused.
`PHYPayloadMarshalToText` returns an error with the empty text, and `decodePHYPayload`,
given a payload classified by those header bits, returns the refusal and leaves the
JoinRequest, JoinAccept and MACPayload sub-records unpopulated. -/
theorem unsupported_types_refused (h : Byte) (rest : List Byte)
    (hty : h.val >>> 5 = 6 ∨ h.val >>> 5 = 7) :
    (∃ e, PHYPayloadMarshalToText lorawan.PHYPayload.UnmarshalBinary (h :: rest)
        = some ("", some e))
      ∧ ∀ p : lorawan.PHYPayload, p.MHDR.MType = h.val >>> 5 →
        ∃ c, decodePHYPayload { RawPacket := h :: rest } p
            = some (c, some (if h.val >>> 5 = 6 then "not support rejoin_request packet"
                else "not support proprietary packet"))
          ∧ c.PHYPayload.JoinRequest = none ∧ c.PHYPayload.JoinAccept = none
          ∧ c.PHYPayload.MACPayload = none := by
  have hdec : ∀ p : lorawan.PHYPayload, p.MHDR.MType = h.val >>> 5 →
      decodePHYPayload { RawPacket := h :: rest } p
        = some (setHeader { RawPacket := h :: rest } p h,
            some (if h.val >>> 5 = 6 then "not support rejoin_request packet"
              else "not support proprietary packet")) := by
    intro p hp
    rcases hty with h6 | h7
    · rw [h6] at hp
      simp [decodePHYPayload, hp, h6, lorawan.JoinRequest, lorawan.JoinAccept,
        lorawan.UnconfirmedDataUp, lorawan.ConfirmedDataUp, lorawan.UnconfirmedDataDown,
        lorawan.ConfirmedDataDown, lorawan.RejoinRequest]
    · rw [h7] at hp
      simp [decodePHYPayload, hp, h7, lorawan.JoinRequest, lorawan.JoinAccept,
        lorawan.UnconfirmedDataUp, lorawan.ConfirmedDataUp, lorawan.UnconfirmedDataDown,
        lorawan.ConfirmedDataDown, lorawan.RejoinRequest, lorawan.Proprietary]
  refine ⟨?_, fun p hp => ⟨_, hdec p hp, rfl, rfl, rfl⟩⟩
  unfold PHYPayloadMarshalToText
  cases hu : lorawan.PHYPayload.UnmarshalBinary (h :: rest) with
  | error err => exact ⟨err, rfl⟩
  | ok p =>
    have hp : p.MHDR.MType = h.val >>> 5 := by
      unfold lorawan.PHYPayload.UnmarshalBinary at hu
      split_ifs at hu
      rcases hty with h6 | h7
      · simp [lorawan.MHDR.UnmarshalBinary, lorawan.mtypeTable, h6, lorawan.JoinRequest,
          lorawan.JoinAccept, lorawan.UnconfirmedDataUp, lorawan.ConfirmedDataUp,
          lorawan.UnconfirmedDataDown, lorawan.ConfirmedDataDown, lorawan.RejoinRequest] at hu
        rw [← hu]
        exact h6.symm
      · simp [lorawan.MHDR.UnmarshalBinary, lorawan.mtypeTable, h7, lorawan.JoinRequest,
          lorawan.JoinAccept, lorawan.UnconfirmedDataUp, lorawan.ConfirmedDataUp,
          lorawan.UnconfirmedDataDown, lorawan.ConfirmedDataDown, lorawan.RejoinRequest,
          lorawan.Proprietary] at hu
        rw [← hu]
        exact h7.symm
    simp only [hdec p hp]
    exact ⟨_, rfl⟩

theorem unsupported_types_refused_witness :
    ((0xe0 : Byte).val >>> 5 = 6 ∨ (0xe0 : Byte).val >>> 5 = 7)
      ∧ (∃ e, PHYPayloadMarshalToText lorawan.PHYPayload.UnmarshalBinary
          (0xe0 :: [0x01, 0x02, 0x03, 0x04, 0x05, 0x06, 0x07, 0xde, 0xad, 0xbe, 0xef])
          = some ("", some e))
      ∧ ∃ c, decodePHYPayload
            { RawPacket := 0xe0 :: [0x01, 0x02, 0x03, 0x04, 0x05, 0x06, 0x07, 0xde, 0xad, 0xbe, 0xef] }
            { MHDR := { MType := lorawan.Proprietary }
              MACPayload := lorawan.Payload.DataPayload [0x01, 0x02, 0x03, 0x04, 0x05, 0x06, 0x07]
              MIC := [0xde, 0xad, 0xbe, 0xef] }
          = some (c, some (if (0xe0 : Byte).val >>> 5 = 6 then "not support rejoin_request packet"
              else "not support proprietary packet"))
        ∧ c.PHYPayload.JoinRequest = none ∧ c.PHYPayload.JoinAccept = none
        ∧ c.PHYPayload.MACPayload = none :=
  ⟨by decide,
   (unsupported_types_refused 0xe0
      [0x01, 0x02, 0x03, 0x04, 0x05, 0x06, 0x07, 0xde, 0xad, 0xbe, 0xef] (by decide)).1,
   (unsupported_types_refused 0xe0
      [0x01, 0x02, 0x03, 0x04, 0x05, 0x06, 0x07, 0xde, 0xad, 0xbe, 0xef] (by decide)).2
      { MHDR := { MType := lorawan.Proprietary }
        MACPayload := lorawan.Payload.DataPayload [0x01, 0x02, 0x03, 0x04, 0x05, 0x06, 0x07]
        MIC := [0xde, 0xad, 0xbe, 0xef] } (by decide)⟩

theorem String_ne_empty (c : Content) : c.String ≠ "" := by
  intro h
  have hl := congrArg String.length h
  simp [Content.String, String.length_append] at hl
  have : ("Raw PHYPayload: " : String).length = 16 := by decide
  omega

/-- C4: for every frame parser that rejects the empty input and for every input,
`PHYPayloadMarshalToText` returns either a non-empty text with no error or an error with
the empty text; it never returns an error together with text. -/
theorem no_partial_output (unmarshal : List Byte → Except String lorawan.PHYPayload)
    (hempty : ∀ p, unmarshal [] ≠ .ok p) (b : List Byte) :
    (∃ t, t ≠ "" ∧ PHYPayloadMarshalToText unmarshal b = some (t, none))
      ∨ (∃ e, PHYPayloadMarshalToText unmarshal b = some ("", some e)) := by
  cases hu : unmarshal b with
  | error err => exact Or.inr ⟨err, by simp only [PHYPayloadMarshalToText, hu]⟩
  | ok p =>
    cases b with
    | nil => exact absurd hu (hempty p)
    | cons b0 rest =>
      obtain ⟨r, hd⟩ := decodePHYPayload_total { RawPacket := b0 :: rest } p b0 rest rfl
      obtain ⟨c, e⟩ := r
      cases e with
      | some e => exact Or.inr ⟨e, by simp only [PHYPayloadMarshalToText, hu, hd]⟩
      | none =>
        exact Or.inl ⟨c.String, String_ne_empty c, by simp only [PHYPayloadMarshalToText, hu, hd]⟩

set_option maxRecDepth 1000000 in
theorem no_partial_output_witness :
    (∀ p, lorawan.PHYPayload.UnmarshalBinary [] ≠ .ok p)
      ∧ ((∃ t, t ≠ "" ∧ PHYPayloadMarshalToText lorawan.PHYPayload.UnmarshalBinary
            sampleJoinRequest = some (t, none))
        ∨ (∃ e, PHYPayloadMarshalToText lorawan.PHYPayload.UnmarshalBinary
            sampleJoinRequest = some ("", some e))) :=
  ⟨fun p => by simp [lorawan.PHYPayload.UnmarshalBinary],
   no_partial_output lorawan.PHYPayload.UnmarshalBinary
    (fun p => by simp [lorawan.PHYPayload.UnmarshalBinary]) sampleJoinRequest⟩

/-- C5: every 23-byte frame whose header selects Join-Request (000) decodes without error,
and the decoded AppEUI and DevEUI are the lowercase hex of frame bytes 1..8 and 9..16, each
in reversed byte order. -/
theorem join_request_eui_reversed (b : List Byte) (hlen : b.length = 23)
    (hty : (b.getD 0 0).val >>> 5 = 0) :
    ∃ p c jr, lorawan.PHYPayload.UnmarshalBinary b = .ok p
      ∧ decodePHYPayload { RawPacket := b } p = some (c, none)
      ∧ PHYPayloadMarshalToText lorawan.PHYPayload.UnmarshalBinary b = some (c.String, none)
      ∧ c.PHYPayload.JoinRequest = some jr
      ∧ jr.AppEUI = hex.EncodeToString ((b.drop 1).take 8).reverse
      ∧ jr.DevEUI = hex.EncodeToString ((b.drop 9).take 8).reverse := by
  cases b with
  | nil => simp at hlen
  | cons h rest =>
    simp only [List.length_cons, Nat.add_right_cancel_iff] at hlen
    simp only [List.getD_cons_zero] at hty
    have hlen' : rest.length = 22 := by omega
    have hp : lorawan.PHYPayload.UnmarshalBinary (h :: rest)
        = .ok { MHDR := { MType := lorawan.JoinRequest, Major := h.val &&& 3 }
                MACPayload := lorawan.Payload.JoinRequestPayload
                  { JoinEUI := (rest.take 8).reverse
                    DevEUI := ((rest.drop 8).take 8).reverse
                    DevNonce := lorawan.leUint ((rest.drop 16).take 2) }
                MIC := rest.drop 18 } := by
      simp [lorawan.PHYPayload.UnmarshalBinary, lorawan.MHDR.UnmarshalBinary,
        lorawan.mtypeTable, lorawan.JoinRequestPayload.UnmarshalBinary, hlen', hty,
        Except.map, List.take_take, List.drop_take]
    have hd : ∃ c, decodePHYPayload { RawPacket := h :: rest }
          { MHDR := { MType := lorawan.JoinRequest, Major := h.val &&& 3 }
            MACPayload := lorawan.Payload.JoinRequestPayload
              { JoinEUI := (rest.take 8).reverse
                DevEUI := ((rest.drop 8).take 8).reverse
                DevNonce := lorawan.leUint ((rest.drop 16).take 2) }
            MIC := rest.drop 18 } = some (c, none)
        ∧ c.PHYPayload.JoinRequest = some
            { AppEUI := hex.EncodeToString (rest.take 8).reverse
              DevEUI := hex.EncodeToString ((rest.drop 8).take 8).reverse
              DevNonce := hex.EncodeToString
                (lorawan.DevNonce.MarshalBinary (lorawan.leUint ((rest.drop 16).take 2))) } :=
      ⟨_, by simp [decodePHYPayload, decodeJoinRequest]; rfl, rfl⟩
    obtain ⟨c, hc, hjr⟩ := hd
    refine ⟨_, c, _, hp, hc, ?_, hjr, ?_, ?_⟩
    · simp only [PHYPayloadMarshalToText, hp, hc]
    · simp
    · simp

theorem join_request_eui_reversed_witness :
    ∃ p c jr, lorawan.PHYPayload.UnmarshalBinary sampleJoinRequest = .ok p
      ∧ decodePHYPayload { RawPacket := sampleJoinRequest } p = some (c, none)
      ∧ PHYPayloadMarshalToText lorawan.PHYPayload.UnmarshalBinary sampleJoinRequest
          = some (c.String, none)
      ∧ c.PHYPayload.JoinRequest = some jr
      ∧ jr.AppEUI = hex.EncodeToString ((sampleJoinRequest.drop 1).take 8).reverse
      ∧ jr.DevEUI = hex.EncodeToString ((sampleJoinRequest.drop 9).take 8).reverse :=
  join_request_eui_reversed sampleJoinRequest (by decide) (by decide)

/-- A 17-byte join-accept frame: the body ends with the receive-delay byte. -/
def sampleJoinAccept : List Byte :=
  [0x20, 0x01, 0x02, 0x03, 0x04, 0x05, 0x06, 0x07, 0x08, 0x09, 0x0a, 0x11, 0x01, 0xde, 0xad,
   0xbe, 0xef]

/-- C6: every frame whose header selects Join-Accept (001) and whose body is exactly the
twelve bytes join-nonce, home-network-id, device-address, downlink-settings and
receive-delay decodes through `PHYPayloadMarshalToText` without error, and the decoded
Join-Accept record has no channel-frequency list. -/
theorem join_accept_without_cflist (b : List Byte) (hlen : b.length = 17)
    (hty : (b.getD 0 0).val >>> 5 = 1) :
    ∃ p c ja, lorawan.PHYPayload.UnmarshalBinary b = .ok p
      ∧ decodePHYPayload { RawPacket := b } p = some (c, none)
      ∧ PHYPayloadMarshalToText lorawan.PHYPayload.UnmarshalBinary b = some (c.String, none)
      ∧ c.PHYPayload.JoinAccept = some ja
      ∧ ja.CFList = none := by
  cases b with
  | nil => simp at hlen
  | cons h rest =>
    simp only [List.length_cons, Nat.add_right_cancel_iff] at hlen
    simp only [List.getD_cons_zero] at hty
    have hlen' : rest.length = 16 := by omega
    obtain ⟨j, hj, hcf⟩ : ∃ j, lorawan.JoinAcceptPayload.UnmarshalBinary (rest.take 12) = .ok j
        ∧ j.CFList = none :=
      ⟨_, by simp [lorawan.JoinAcceptPayload.UnmarshalBinary, hlen']; rfl, by simp [hlen']⟩
    have hp : lorawan.PHYPayload.UnmarshalBinary (h :: rest)
        = .ok { MHDR := { MType := lorawan.JoinAccept, Major := h.val &&& 3 }
                MACPayload := lorawan.Payload.JoinAcceptPayload j
                MIC := rest.drop 12 } := by
      simp [lorawan.PHYPayload.UnmarshalBinary, lorawan.MHDR.UnmarshalBinary,
        lorawan.mtypeTable, hlen', hty, hj, Except.map, lorawan.JoinAccept,
        lorawan.JoinRequest]
    have hd : ∃ c ja, decodePHYPayload { RawPacket := h :: rest }
          { MHDR := { MType := lorawan.JoinAccept, Major := h.val &&& 3 }
            MACPayload := lorawan.Payload.JoinAcceptPayload j
            MIC := rest.drop 12 } = some (c, none)
        ∧ c.PHYPayload.JoinAccept = some ja ∧ ja.CFList = none :=
      ⟨_, _, by simp [decodePHYPayload, decodeJoinAccept, lorawan.JoinAccept,
        lorawan.JoinRequest]; rfl, rfl, by simp [hcf]⟩
    obtain ⟨c, ja, hc, hja, hnone⟩ := hd
    refine ⟨_, c, ja, hp, hc, ?_, hja, hnone⟩
    simp only [PHYPayloadMarshalToText, hp, hc]

theorem join_accept_without_cflist_witness :
    ∃ p c ja, lorawan.PHYPayload.UnmarshalBinary sampleJoinAccept = .ok p
      ∧ decodePHYPayload { RawPacket := sampleJoinAccept } p = some (c, none)
      ∧ PHYPayloadMarshalToText lorawan.PHYPayload.UnmarshalBinary sampleJoinAccept
          = some (c.String, none)
      ∧ c.PHYPayload.JoinAccept = some ja
      ∧ ja.CFList = none :=
  join_accept_without_cflist sampleJoinAccept (by decide) (by decide)

/-- C7: every uplink data frame (unconfirmed 010 or confirmed 100) whose frame-options
length, the low 4 bits of the frame-control byte, exceeds the number of body bytes left
after the 7-byte fixed frame header and before the MIC makes `PHYPayloadMarshalToText`
return an error; nothing is read out of bounds. -/
theorem uplink_fopts_overrun_rejected (b : List Byte)
    (hty : (b.getD 0 0).val >>> 5 = 2 ∨ (b.getD 0 0).val >>> 5 = 4)
    (hover : b.length - 12 < (b.getD 5 0).val &&& 0x0f) :
    PHYPayloadMarshalToText lorawan.PHYPayload.UnmarshalBinary b
      = some ("", some "MalformedFrame") := by
  by_cases hshort : b.length < 12
  · unfold PHYPayloadMarshalToText
    rw [UnmarshalBinary_short b hshort]
  · cases b with
    | nil => simp at hshort
    | cons h rest =>
      simp only [List.length_cons] at hshort hover
      simp only [List.getD_cons_zero] at hty
      have hfc : (rest.take (rest.length - 4)).getD 4 0 = rest.getD 4 0 := by
        simp only [List.getD_eq_getElem?_getD]
        rw [List.getElem?_take_of_lt (by omega)]
      have hover' : rest.length - 4 < 7 + ((rest.getD 4 0).val &&& 0x0f) := by
        have : (h :: rest).getD 5 0 = rest.getD 4 0 := rfl
        rw [this] at hover
        omega
      have hu : lorawan.MACPayload.UnmarshalBinary true (rest.take (rest.length - 4))
          = .error "MalformedFrame" := by
        unfold lorawan.MACPayload.UnmarshalBinary
        have hmin : min (rest.length - 4) rest.length = rest.length - 4 := by omega
        simp only [List.length_take, hfc, lorawan.FCtrl.UnmarshalBinary, hmin]
        split_ifs <;> rfl
      rcases hty with h2 | h4
      · simp [PHYPayloadMarshalToText, lorawan.PHYPayload.UnmarshalBinary,
          lorawan.MHDR.UnmarshalBinary, lorawan.mtypeTable, h2, hu, Except.map,
          lorawan.JoinRequest, lorawan.JoinAccept, lorawan.UnconfirmedDataUp]
      · simp [PHYPayloadMarshalToText, lorawan.PHYPayload.UnmarshalBinary,
          lorawan.MHDR.UnmarshalBinary, lorawan.mtypeTable, h4, hu, Except.map,
          lorawan.JoinRequest, lorawan.JoinAccept, lorawan.UnconfirmedDataUp,
          lorawan.ConfirmedDataUp, lorawan.UnconfirmedDataDown]

theorem uplink_fopts_overrun_rejected_witness :
    PHYPayloadMarshalToText lorawan.PHYPayload.UnmarshalBinary
        [0x40, 0x01, 0x02, 0x03, 0x04, 0x03, 0x05, 0x00, 0xa1, 0xa2, 0xde, 0xad, 0xbe, 0xef]
      = some ("", some "MalformedFrame") :=
  uplink_fopts_overrun_rejected
    [0x40, 0x01, 0x02, 0x03, 0x04, 0x03, 0x05, 0x00, 0xa1, 0xa2, 0xde, 0xad, 0xbe, 0xef]
    (by decide) (by decide)

theorem UnmarshalBinary_header (b : List Byte) (p : lorawan.PHYPayload)
    (h : lorawan.PHYPayload.UnmarshalBinary b = .ok p) :
    ∃ h0 rest, b = h0 :: rest ∧ lorawan.MHDR.UnmarshalBinary h0 = .ok p.MHDR := by
  unfold lorawan.PHYPayload.UnmarshalBinary at h
  split_ifs at h
  cases b with
  | nil => simp at h
  | cons h0 rest =>
    refine ⟨h0, rest, rfl, ?_⟩
    simp only at h
    cases hm : lorawan.MHDR.UnmarshalBinary h0 with
    | error e => simp [hm] at h
    | ok mhdr =>
      simp only [hm] at h
      split at h
      · simp at h
      · simp only [Except.ok.injEq] at h
        rw [← h]

theorem MHDR_UnmarshalBinary_table (h0 : Byte) (m : lorawan.MHDR)
    (h : lorawan.MHDR.UnmarshalBinary h0 = .ok m) :
    lorawan.mtypeTable.get? (h0.val >>> 5) = some m.MType := by
  unfold lorawan.MHDR.UnmarshalBinary at h
  split at h
  · simp at h
  · rename_i t ht
    simp only [Except.ok.injEq] at h
    rw [← h]
    exact ht

theorem decodeJoinRequest_error (p : lorawan.PHYPayload) :
    (decodeJoinRequest p).2 ≠ some "unknown packet" := by
  unfold decodeJoinRequest
  split <;> simp

theorem decodeJoinAccept_error (p : lorawan.PHYPayload) :
    (decodeJoinAccept p).2 ≠ some "unknown packet" := by
  unfold decodeJoinAccept
  split <;> simp

theorem decodeUplinkMACPayload_error (p : lorawan.PHYPayload) :
    (decodeUplinkMACPayload p).2 ≠ some "unknown packet" := by
  unfold decodeUplinkMACPayload
  split <;> simp

theorem decodeDownlinkMACPayload_error (p : lorawan.PHYPayload) :
    (decodeDownlinkMACPayload p).2 ≠ some "unknown packet" := by
  unfold decodeDownlinkMACPayload
  split <;> simp

theorem decodePHYPayload_known (c c' : Content) (p : lorawan.PHYPayload) (e : Option String)
    (hmem : p.MHDR.MType ∈ lorawan.mtypeTable) (h : decodePHYPayload c p = some (c', e)) :
    e ≠ some "unknown packet" := by
  unfold decodePHYPayload at h
  cases hr : c.RawPacket with
  | nil => simp [hr] at h
  | cons b0 rest =>
    simp only [hr] at h
    split_ifs at h with h1 h2 h3 h4 h5 h6 <;>
      simp only [Option.some.injEq, Prod.mk.injEq] at h <;> obtain ⟨-, he⟩ := h <;> subst he
    · exact decodeJoinRequest_error p
    · exact decodeJoinAccept_error p
    · exact decodeUplinkMACPayload_error p
    · exact decodeDownlinkMACPayload_error p
    · simp
    · simp
    · exfalso
      simp only [lorawan.mtypeTable, List.mem_cons, List.mem_singleton, List.not_mem_nil,
        or_false] at hmem
      tauto

/-- C8: header classification is total and injective on the 3-bit message-type field.
Every header byte is classified, by the entry of the eight-kind table at bits 7-5; the
eight values 0..7 map to distinct kinds with distinct display strings; and for a parsed
frame `decodePHYPayload` never takes its "unknown packet" default branch. -/
theorem header_classification_total_injective :
    (∀ h : Byte, ∃ m, lorawan.MHDR.UnmarshalBinary h = .ok m
        ∧ h.val >>> 5 < 8 ∧ lorawan.mtypeTable.get? (h.val >>> 5) = some m.MType)
      ∧ lorawan.mtypeTable = [lorawan.JoinRequest, lorawan.JoinAccept,
          lorawan.UnconfirmedDataUp, lorawan.UnconfirmedDataDown, lorawan.ConfirmedDataUp,
          lorawan.ConfirmedDataDown, lorawan.RejoinRequest, lorawan.Proprietary]
      ∧ (∀ v : Fin 8, (lorawan.mtypeTable.get? v.val).isSome = true)
      ∧ Function.Injective (fun v : Fin 8 => lorawan.mtypeTable.get? v.val)
      ∧ Function.Injective
          (fun v : Fin 8 => (lorawan.mtypeTable.get? v.val).map lorawan.MType.String)
      ∧ (∀ b p, lorawan.PHYPayload.UnmarshalBinary b = .ok p →
          p.MHDR.MType ∈ lorawan.mtypeTable
            ∧ ∀ c c' e, decodePHYPayload c p = some (c', e) → e ≠ some "unknown packet") := by
  have hlt : ∀ h : Byte, h.val >>> 5 < 8 := by
    intro h
    have := h.isLt
    simp only [Nat.shiftRight_eq_div_pow]
    omega
  refine ⟨?_, rfl, by decide, by decide, by decide, ?_⟩
  · intro h
    have h8 := hlt h
    obtain ⟨t, ht⟩ : ∃ t, lorawan.mtypeTable.get? (h.val >>> 5) = some t := by
      interval_cases (h.val >>> 5) <;> exact ⟨_, rfl⟩
    exact ⟨{ MType := t, Major := h.val &&& 3 },
      by simp only [lorawan.MHDR.UnmarshalBinary, ht], h8, ht⟩
  · intro b p hp
    obtain ⟨h0, rest, -, hm⟩ := UnmarshalBinary_header b p hp
    have hmem : p.MHDR.MType ∈ lorawan.mtypeTable :=
      List.get?_mem (MHDR_UnmarshalBinary_table h0 p.MHDR hm)
    exact ⟨hmem, fun c c' e hd => decodePHYPayload_known c c' p e hmem hd⟩

/-- A 12-byte unconfirmed uplink frame without port byte: the body is the fixed frame
header only. -/
def samplePortAbsent : List Byte :=
  [0x40, 0x01, 0x02, 0x03, 0x04, 0x00, 0x05, 0x00, 0xde, 0xad, 0xbe, 0xef]

/-- The same frame carrying a port byte equal to 0 and no payload bytes. -/
def samplePortZero : List Byte :=
  [0x40, 0x01, 0x02, 0x03, 0x04, 0x00, 0x05, 0x00, 0x00, 0xde, 0xad, 0xbe, 0xef]

/-- C9, as stated, fails: the frame without port byte and the frame with port byte 0 parse
to payloads with `FPort` absent and `FPort` 0, and both decode to the same record with
the same JSON, in which `FPort` is 0. -/
theorem absent_port_not_distinguished :
    ∃ p₁ p₂ m₁ m₂ c₁ c₂,
      lorawan.PHYPayload.UnmarshalBinary samplePortAbsent = .ok p₁
        ∧ lorawan.PHYPayload.UnmarshalBinary samplePortZero = .ok p₂
        ∧ p₁.MACPayload = lorawan.Payload.MACPayload m₁
        ∧ p₂.MACPayload = lorawan.Payload.MACPayload m₂
        ∧ m₁.FPort = none ∧ m₂.FPort = some 0 ∧ m₂.FRMPayload = []
        ∧ decodePHYPayload { RawPacket := samplePortAbsent } p₁ = some (c₁, none)
        ∧ decodePHYPayload { RawPacket := samplePortZero } p₂ = some (c₂, none)
        ∧ c₁.PHYPayload = c₂.PHYPayload
        ∧ PHYPayload.marshal c₁.PHYPayload = PHYPayload.marshal c₂.PHYPayload
        ∧ c₁.PHYPayload.MACPayload.map (fun r => r.FPort) = some 0 :=
  ⟨_, _, _, _, _, _, rfl, rfl, rfl, rfl, rfl, rfl, rfl, rfl, rfl, rfl, rfl, rfl⟩

/-- C9, amended: for every parsed data payload whose port is absent, the uplink and the
downlink decoder both set `FPort` to 0, and the decoded record equals that of the
otherwise identical payload whose port is present and equal to 0. -/
theorem absent_port_decodes_as_zero (p : lorawan.PHYPayload) (m : lorawan.MACPayload)
    (hm : p.MACPayload = lorawan.Payload.MACPayload m) (hport : m.FPort = none) :
    (decodeUplinkMACPayload p).1.FPort = 0
      ∧ (decodeDownlinkMACPayload p).1.FPort = 0
      ∧ decodeUplinkMACPayload p = decodeUplinkMACPayload
          { p with MACPayload := lorawan.Payload.MACPayload { m with FPort := some 0 } }
      ∧ decodeDownlinkMACPayload p = decodeDownlinkMACPayload
          { p with MACPayload := lorawan.Payload.MACPayload { m with FPort := some 0 } } := by
  simp [decodeUplinkMACPayload, decodeDownlinkMACPayload, hm, hport]

theorem absent_port_decodes_as_zero_witness :
    (decodeUplinkMACPayload
        { MHDR := { MType := lorawan.UnconfirmedDataUp }
          MACPayload := lorawan.Payload.MACPayload { FHDR := { DevAddr := [4, 3, 2, 1] } } }).1.FPort = 0
      ∧ (decodeDownlinkMACPayload
        { MHDR := { MType := lorawan.UnconfirmedDataUp }
          MACPayload := lorawan.Payload.MACPayload { FHDR := { DevAddr := [4, 3, 2, 1] } } }).1.FPort = 0
      ∧ decodeUplinkMACPayload
          { MHDR := { MType := lorawan.UnconfirmedDataUp }
            MACPayload := lorawan.Payload.MACPayload { FHDR := { DevAddr := [4, 3, 2, 1] } } }
        = decodeUplinkMACPayload
          { MHDR := { MType := lorawan.UnconfirmedDataUp }
            MACPayload := lorawan.Payload.MACPayload
              { FHDR := { DevAddr := [4, 3, 2, 1] }, FPort := some 0 } }
      ∧ decodeDownlinkMACPayload
          { MHDR := { MType := lorawan.UnconfirmedDataUp }
            MACPayload := lorawan.Payload.MACPayload { FHDR := { DevAddr := [4, 3, 2, 1] } } }
        = decodeDownlinkMACPayload
          { MHDR := { MType := lorawan.UnconfirmedDataUp }
            MACPayload := lorawan.Payload.MACPayload
              { FHDR := { DevAddr := [4, 3, 2, 1] }, FPort := some 0 } } :=
  absent_port_decodes_as_zero
    { MHDR := { MType := lorawan.UnconfirmedDataUp }
      MACPayload := lorawan.Payload.MACPayload { FHDR := { DevAddr := [4, 3, 2, 1] } } }
    { FHDR := { DevAddr := [4, 3, 2, 1] } } rfl rfl

/-- C10: for every parsed data payload the uplink decoder populates ADRACKReq and ClassB
and leaves FPending absent, the downlink decoder populates FPending and leaves ADRACKReq
and ClassB absent, and `decodePHYPayload` stores the uplink decoder's result for both
uplink message types and the downlink decoder's result for both downlink message types. -/
theorem direction_flags (p : lorawan.PHYPayload) (m : lorawan.MACPayload)
    (hm : p.MACPayload = lorawan.Payload.MACPayload m) :
    ((decodeUplinkMACPayload p).2 = none
        ∧ (decodeUplinkMACPayload p).1.FHDR.FCtrl.ADRACKReq = some m.FHDR.FCtrl.ADRACKReq
        ∧ (decodeUplinkMACPayload p).1.FHDR.FCtrl.ClassB = some m.FHDR.FCtrl.ClassB
        ∧ (decodeUplinkMACPayload p).1.FHDR.FCtrl.FPending = none)
      ∧ ((decodeDownlinkMACPayload p).2 = none
        ∧ (decodeDownlinkMACPayload p).1.FHDR.FCtrl.FPending = some m.FHDR.FCtrl.FPending
        ∧ (decodeDownlinkMACPayload p).1.FHDR.FCtrl.ADRACKReq = none
        ∧ (decodeDownlinkMACPayload p).1.FHDR.FCtrl.ClassB = none)
      ∧ ∀ (c : Content) (b0 : Byte) (rest : List Byte), c.RawPacket = b0 :: rest →
        ((p.MHDR.MType = lorawan.UnconfirmedDataUp ∨ p.MHDR.MType = lorawan.ConfirmedDataUp) →
          (decodePHYPayload c p).map (fun r => (r.1.PHYPayload.MACPayload, r.2))
            = some (some (decodeUplinkMACPayload p).1, (decodeUplinkMACPayload p).2))
        ∧ ((p.MHDR.MType = lorawan.UnconfirmedDataDown
            ∨ p.MHDR.MType = lorawan.ConfirmedDataDown) →
          (decodePHYPayload c p).map (fun r => (r.1.PHYPayload.MACPayload, r.2))
            = some (some (decodeDownlinkMACPayload p).1, (decodeDownlinkMACPayload p).2)) := by
  refine ⟨by simp [decodeUplinkMACPayload, hm], by simp [decodeDownlinkMACPayload, hm], ?_⟩
  intro c b0 rest hraw
  constructor
  · intro hty
    have h0 : p.MHDR.MType ≠ lorawan.JoinRequest := by
      rcases hty with h | h <;> rw [h] <;> decide
    have h1 : p.MHDR.MType ≠ lorawan.JoinAccept := by
      rcases hty with h | h <;> rw [h] <;> decide
    simp only [decodePHYPayload, hraw, if_neg h0, if_neg h1, if_pos hty, Option.map_some']
  · intro hty
    have h0 : p.MHDR.MType ≠ lorawan.JoinRequest := by
      rcases hty with h | h <;> rw [h] <;> decide
    have h1 : p.MHDR.MType ≠ lorawan.JoinAccept := by
      rcases hty with h | h <;> rw [h] <;> decide
    have h2 : ¬ (p.MHDR.MType = lorawan.UnconfirmedDataUp
        ∨ p.MHDR.MType = lorawan.ConfirmedDataUp) := by
      rcases hty with h | h <;> rw [h] <;> decide
    simp only [decodePHYPayload, hraw, if_neg h0, if_neg h1, if_neg h2, if_pos hty,
      Option.map_some']

/-- A parsed data payload: address 04030201, ADR and ADR-ack-request set, counter 5,
port 10, one payload byte. -/
def sampleMAC : lorawan.MACPayload :=
  { FHDR := { DevAddr := [4, 3, 2, 1], FCtrl := { ADR := true, ADRACKReq := true }, FCnt := 5 }
    FPort := some 10
    FRMPayload := [[0x99]] }

/-- A parsed unconfirmed uplink frame holding `sampleMAC`. -/
def sampleUplink : lorawan.PHYPayload :=
  { MHDR := { MType := lorawan.UnconfirmedDataUp }
    MACPayload := lorawan.Payload.MACPayload sampleMAC
    MIC := [0xde, 0xad, 0xbe, 0xef] }

theorem direction_flags_witness :
    ((decodeUplinkMACPayload sampleUplink).2 = none
        ∧ (decodeUplinkMACPayload sampleUplink).1.FHDR.FCtrl.ADRACKReq
            = some sampleMAC.FHDR.FCtrl.ADRACKReq
        ∧ (decodeUplinkMACPayload sampleUplink).1.FHDR.FCtrl.ClassB
            = some sampleMAC.FHDR.FCtrl.ClassB
        ∧ (decodeUplinkMACPayload sampleUplink).1.FHDR.FCtrl.FPending = none)
      ∧ ((decodeDownlinkMACPayload sampleUplink).2 = none
        ∧ (decodeDownlinkMACPayload sampleUplink).1.FHDR.FCtrl.FPending
            = some sampleMAC.FHDR.FCtrl.FPending
        ∧ (decodeDownlinkMACPayload sampleUplink).1.FHDR.FCtrl.ADRACKReq = none
        ∧ (decodeDownlinkMACPayload sampleUplink).1.FHDR.FCtrl.ClassB = none)
      ∧ (decodePHYPayload { RawPacket := [0x40] } sampleUplink).map
          (fun r => (r.1.PHYPayload.MACPayload, r.2))
        = some (some (decodeUplinkMACPayload sampleUplink).1,
            (decodeUplinkMACPayload sampleUplink).2) :=
  ⟨(direction_flags sampleUplink sampleMAC rfl).1,
   (direction_flags sampleUplink sampleMAC rfl).2.1,
   ((direction_flags sampleUplink sampleMAC rfl).2.2 { RawPacket := [0x40] } 0x40 [] rfl).1
     (Or.inl rfl)⟩

/-- A 17-byte unconfirmed uplink frame: frame control 0x82 (ADR, two option bytes),
options a1 a2, port 10, payload 99 98. -/
def sampleUplinkOptions : List Byte :=
  [0x40, 0x01, 0x02, 0x03, 0x04, 0x82, 0x05, 0x00, 0xa1, 0xa2, 0x0a, 0x99, 0x98, 0xde, 0xad,
   0xbe, 0xef]

/-- C11, on the code: neither decoder assigns `FCtrl.FOptsLen`, so it is 0 for every parsed
payload; on the frame `sampleUplinkOptions`, whose frame-control byte has low 4 bits 2 and
whose two option bytes are decoded as "a1a2", the decoded `FOptsLen` is 0. -/
theorem fopts_len_never_populated :
    (∀ p : lorawan.PHYPayload,
        (decodeUplinkMACPayload p).1.FHDR.FCtrl.FOptsLen = 0
          ∧ (decodeDownlinkMACPayload p).1.FHDR.FCtrl.FOptsLen = 0)
      ∧ ∃ p c mp, lorawan.PHYPayload.UnmarshalBinary sampleUplinkOptions = .ok p
          ∧ decodePHYPayload { RawPacket := sampleUplinkOptions } p = some (c, none)
          ∧ c.PHYPayload.MACPayload = some mp
          ∧ (sampleUplinkOptions.getD 5 0).val &&& 0x0f = 2
          ∧ mp.FHDR.FOpts.Payload = "a1a2"
          ∧ mp.FHDR.FCtrl.FOptsLen = 0 := by
  refine ⟨?_, _, _, _, rfl, rfl, rfl, rfl, rfl, rfl⟩
  intro p
  constructor
  · unfold decodeUplinkMACPayload
    split <;> rfl
  · unfold decodeDownlinkMACPayload
    split <;> rfl

theorem decodePHYPayload_header (c c' : Content) (p : lorawan.PHYPayload) (e : Option String)
    (b0 : Byte) (rest : List Byte) (hraw : c.RawPacket = b0 :: rest)
    (h : decodePHYPayload c p = some (c', e)) :
    c'.PHYPayload.MHDR = (setHeader c p b0).PHYPayload.MHDR := by
  unfold decodePHYPayload at h
  simp only [hraw] at h
  split_ifs at h <;> simp only [Option.some.injEq, Prod.mk.injEq] at h <;>
    (obtain ⟨hc, -⟩ := h; subst hc; rfl)

set_option maxRecDepth 100000 in
theorem rfu_value (b0 : Byte) : (b0.val &&& 0x1c) >>> 2 = b0.val / 4 % 8 := by
  revert b0
  decide

set_option maxRecDepth 100000 in
theorem rfu_bit4 (b0 : Byte) : b0.val.testBit 4 = decide (4 ≤ b0.val / 4 % 8) := by
  revert b0
  decide

/-- C12, as stated, fails: the join-request frame `sampleJoinRequest` (header byte 0x00)
decodes without error and its MHDR RFU field is "0", one character and not three. -/
theorem rfu_not_three_characters :
    ∃ p c, lorawan.PHYPayload.UnmarshalBinary sampleJoinRequest = .ok p
      ∧ decodePHYPayload { RawPacket := sampleJoinRequest } p = some (c, none)
      ∧ c.PHYPayload.MHDR.RFU = "0"
      ∧ c.PHYPayload.MHDR.RFU.length ≠ 3 :=
  ⟨_, _, rfl, rfl, rfl, by decide⟩

/-- C12, amended: whenever `decodePHYPayload` returns, the MHDR RFU field is the binary
numeral, without leading zeros, of the value of bits 4-2 of the header byte: one to three
characters, each '0' or '1', whose value is that of the three bits; it has exactly three
characters if and only if bit 4 is set. -/
theorem rfu_binary_numeral (c c' : Content) (p : lorawan.PHYPayload) (e : Option String)
    (b0 : Byte) (rest : List Byte) (hraw : c.RawPacket = b0 :: rest)
    (h : decodePHYPayload c p = some (c', e)) :
    c'.PHYPayload.MHDR.RFU = fmt.binary (b0.val / 4 % 8)
      ∧ (∀ ch ∈ c'.PHYPayload.MHDR.RFU.data, ch = '0' ∨ ch = '1')
      ∧ 1 ≤ c'.PHYPayload.MHDR.RFU.length ∧ c'.PHYPayload.MHDR.RFU.length ≤ 3
      ∧ c'.PHYPayload.MHDR.RFU.data.foldl (fun n ch => 2 * n + (ch.toNat - '0'.toNat)) 0
          = b0.val / 4 % 8
      ∧ (c'.PHYPayload.MHDR.RFU.length = 3 ↔ b0.val.testBit 4 = true) := by
  have hr : c'.PHYPayload.MHDR.RFU = fmt.binary (b0.val / 4 % 8) := by
    rw [decodePHYPayload_header c c' p e b0 rest hraw h, ← rfu_value b0]
    rfl
  rw [hr, rfu_bit4 b0]
  have hv : b0.val / 4 % 8 < 8 := Nat.mod_lt _ (by decide)
  refine ⟨rfl, ?_⟩
  interval_cases (b0.val / 4 % 8) <;> decide

theorem rfu_binary_numeral_witness :
    ∃ c, decodePHYPayload { RawPacket := sampleUplinkOptions } sampleUplink = some (c, none)
      ∧ c.PHYPayload.MHDR.RFU = fmt.binary ((0x40 : Byte).val / 4 % 8)
      ∧ (∀ ch ∈ c.PHYPayload.MHDR.RFU.data, ch = '0' ∨ ch = '1')
      ∧ 1 ≤ c.PHYPayload.MHDR.RFU.length ∧ c.PHYPayload.MHDR.RFU.length ≤ 3
      ∧ c.PHYPayload.MHDR.RFU.data.foldl (fun n ch => 2 * n + (ch.toNat - '0'.toNat)) 0
          = (0x40 : Byte).val / 4 % 8
      ∧ (c.PHYPayload.MHDR.RFU.length = 3 ↔ (0x40 : Byte).val.testBit 4 = true) :=
  ⟨_, rfl, rfu_binary_numeral { RawPacket := sampleUplinkOptions } _ sampleUplink none 0x40
    [0x01, 0x02, 0x03, 0x04, 0x82, 0x05, 0x00, 0xa1, 0xa2, 0x0a, 0x99, 0x98, 0xde, 0xad,
     0xbe, 0xef] rfl rfl⟩

theorem UnmarshalBinary_ok (b : List Byte) (p : lorawan.PHYPayload)
    (h : lorawan.PHYPayload.UnmarshalBinary b = .ok p) :
    ∃ h0 rest, b = h0 :: rest ∧ 12 ≤ b.length
      ∧ lorawan.MHDR.UnmarshalBinary h0 = .ok p.MHDR
      ∧ (p.MHDR.MType = lorawan.JoinRequest →
          ∃ j, lorawan.JoinRequestPayload.UnmarshalBinary (rest.take (rest.length - 4)) = .ok j
            ∧ p.MACPayload = lorawan.Payload.JoinRequestPayload j)
      ∧ (p.MHDR.MType = lorawan.UnconfirmedDataUp ∨ p.MHDR.MType = lorawan.ConfirmedDataUp →
          ∃ m, lorawan.MACPayload.UnmarshalBinary true (rest.take (rest.length - 4)) = .ok m
            ∧ p.MACPayload = lorawan.Payload.MACPayload m)
      ∧ (p.MHDR.MType = lorawan.UnconfirmedDataDown
          ∨ p.MHDR.MType = lorawan.ConfirmedDataDown →
          ∃ m, lorawan.MACPayload.UnmarshalBinary false (rest.take (rest.length - 4)) = .ok m
            ∧ p.MACPayload = lorawan.Payload.MACPayload m) := by
  unfold lorawan.PHYPayload.UnmarshalBinary at h
  split_ifs at h with hlen
  cases b with
  | nil => simp at h
  | cons h0 rest =>
    refine ⟨h0, rest, rfl, by omega, ?_⟩
    simp only at h
    cases hm : lorawan.MHDR.UnmarshalBinary h0 with
    | error e => simp [hm] at h
    | ok mhdr =>
      simp only [hm] at h
      split at h
      · simp at h
      · rename_i pl hpl
        simp only [Except.ok.injEq] at h
        subst h
        refine ⟨rfl, ?_, ?_, ?_⟩
        · intro hty
          simp only at hty
          simp only [hty, if_true] at hpl
          cases hj : lorawan.JoinRequestPayload.UnmarshalBinary (rest.take (rest.length - 4)) with
          | error e => simp [hj, Except.map] at hpl
          | ok j =>
            simp only [hj, Except.map, Except.ok.injEq] at hpl
            exact ⟨j, rfl, hpl.symm⟩
        · intro hty
          simp only at hty
          have h0 : mhdr.MType ≠ lorawan.JoinRequest := by
            rcases hty with h | h <;> rw [h] <;> decide
          have h1 : mhdr.MType ≠ lorawan.JoinAccept := by
            rcases hty with h | h <;> rw [h] <;> decide
          simp only [if_neg h0, if_neg h1, if_pos hty] at hpl
          cases hj : lorawan.MACPayload.UnmarshalBinary true (rest.take (rest.length - 4)) with
          | error e => simp [hj, Except.map] at hpl
          | ok m =>
            simp only [hj, Except.map, Except.ok.injEq] at hpl
            exact ⟨m, rfl, hpl.symm⟩
        · intro hty
          simp only at hty
          have h0 : mhdr.MType ≠ lorawan.JoinRequest := by
            rcases hty with h | h <;> rw [h] <;> decide
          have h1 : mhdr.MType ≠ lorawan.JoinAccept := by
            rcases hty with h | h <;> rw [h] <;> decide
          have h2 : ¬ (mhdr.MType = lorawan.UnconfirmedDataUp
              ∨ mhdr.MType = lorawan.ConfirmedDataUp) := by
            rcases hty with h | h <;> rw [h] <;> decide
          simp only [if_neg h0, if_neg h1, if_neg h2, if_pos hty] at hpl
          cases hj : lorawan.MACPayload.UnmarshalBinary false (rest.take (rest.length - 4)) with
          | error e => simp [hj, Except.map] at hpl
          | ok m =>
            simp only [hj, Except.map, Except.ok.injEq] at hpl
            exact ⟨m, rfl, hpl.symm⟩

theorem leBytes_leUint_two (x y : Byte) :
    lorawan.leBytes 2 (lorawan.leUint [x, y]) = [x, y] := by
  have hx := x.isLt
  have hy := y.isLt
  simp only [lorawan.leBytes, lorawan.leUint, List.cons.injEq, and_true]
  constructor
  · apply Fin.ext
    simp only
    omega
  · apply Fin.ext
    simp only
    omega

/-- C13: for every Join-Request frame decoded successfully, the decoded DevNonce is the
lowercase hex of the two device-nonce wire bytes (frame bytes 17 and 18) in reversed
(big-endian) order, the display convention of the two EUIs, which are the hex of frame
bytes 1..8 and 9..16 in reversed order. -/
theorem dev_nonce_reversed (b : List Byte) (p : lorawan.PHYPayload) (c : Content)
    (hty : p.MHDR.MType = lorawan.JoinRequest)
    (hp : lorawan.PHYPayload.UnmarshalBinary b = .ok p)
    (hd : decodePHYPayload { RawPacket := b } p = some (c, none)) :
    ∃ jr, c.PHYPayload.JoinRequest = some jr
      ∧ ((b.drop 17).take 2).length = 2
      ∧ jr.DevNonce = hex.EncodeToString ((b.drop 17).take 2).reverse
      ∧ jr.AppEUI = hex.EncodeToString ((b.drop 1).take 8).reverse
      ∧ jr.DevEUI = hex.EncodeToString ((b.drop 9).take 8).reverse := by
  obtain ⟨h0, rest, hb, hlen, -, hjr, -, -⟩ := UnmarshalBinary_ok b p hp
  obtain ⟨j, hj, hpl⟩ := hjr hty
  subst hb
  simp only [List.length_cons] at hlen
  unfold lorawan.JoinRequestPayload.UnmarshalBinary at hj
  split_ifs at hj with hshort
  simp only [List.length_take] at hshort
  simp only [Except.ok.injEq] at hj
  have hn : ((rest.take (rest.length - 4)).drop 16).take 2 = (rest.drop 16).take 2 := by
    rw [List.drop_take, List.take_take]
    congr 1
    omega
  have ha : (rest.take (rest.length - 4)).take 8 = rest.take 8 := by
    rw [List.take_take]
    congr 1
    omega
  have hv : ((rest.take (rest.length - 4)).drop 8).take 8 = (rest.drop 8).take 8 := by
    rw [List.drop_take, List.take_take]
    congr 1
    omega
  have hl2 : ((rest.drop 16).take 2).length = 2 := by
    simp only [List.length_take, List.length_drop]
    omega
  obtain ⟨x, y, hxy⟩ : ∃ x y, (rest.drop 16).take 2 = [x, y] := by
    match hm : (rest.drop 16).take 2, hl2 with
    | [x, y], _ => exact ⟨x, y, rfl⟩
  simp only [decodePHYPayload, if_pos hty, Option.some.injEq, Prod.mk.injEq] at hd
  obtain ⟨hc, -⟩ := hd
  subst hc
  refine ⟨_, rfl, ?_, ?_, ?_, ?_⟩
  · simpa using hl2
  · simp only [decodeJoinRequest, hpl, ← hj, hn, hxy, lorawan.DevNonce.MarshalBinary,
      leBytes_leUint_two, List.drop_succ_cons]
  · simp only [decodeJoinRequest, hpl, ← hj, ha, lorawan.arrayString, List.drop_succ_cons,
      List.drop_zero]
  · simp only [decodeJoinRequest, hpl, ← hj, hv, lorawan.arrayString, List.drop_succ_cons]

theorem dev_nonce_reversed_witness :
    ∃ p c jr, lorawan.PHYPayload.UnmarshalBinary sampleJoinRequest = .ok p
      ∧ decodePHYPayload { RawPacket := sampleJoinRequest } p = some (c, none)
      ∧ c.PHYPayload.JoinRequest = some jr
      ∧ ((sampleJoinRequest.drop 17).take 2).length = 2
      ∧ jr.DevNonce = hex.EncodeToString ((sampleJoinRequest.drop 17).take 2).reverse
      ∧ jr.AppEUI = hex.EncodeToString ((sampleJoinRequest.drop 1).take 8).reverse
      ∧ jr.DevEUI = hex.EncodeToString ((sampleJoinRequest.drop 9).take 8).reverse :=
  ⟨_, _, _, rfl, rfl,
    (dev_nonce_reversed sampleJoinRequest _ _ rfl rfl rfl).choose_spec.1,
    (dev_nonce_reversed sampleJoinRequest _ _ rfl rfl rfl).choose_spec.2.1,
    (dev_nonce_reversed sampleJoinRequest _ _ rfl rfl rfl).choose_spec.2.2.1,
    (dev_nonce_reversed sampleJoinRequest _ _ rfl rfl rfl).choose_spec.2.2.2.1,
    (dev_nonce_reversed sampleJoinRequest _ _ rfl rfl rfl).choose_spec.2.2.2.2⟩

theorem body_take (a0 a1 a2 a3 f : Byte) (tail : List Byte) (h : 4 ≤ tail.length) :
    (a0 :: a1 :: a2 :: a3 :: f :: tail).take ((a0 :: a1 :: a2 :: a3 :: f :: tail).length - 4)
      = a0 :: a1 :: a2 :: a3 :: f :: tail.take (tail.length - 4) := by
  have hk : (a0 :: a1 :: a2 :: a3 :: f :: tail).length - 4 = (tail.length - 4) + 5 := by
    simp only [List.length_cons]
    omega
  rw [hk]
  rfl

theorem flatten_opaque (l : List Byte) : (if l.isEmpty then [] else [l]).flatten = l := by
  cases l <;> simp

theorem MACPayload_UnmarshalBinary_cons (uplink : Bool) (a0 a1 a2 a3 f : Byte)
    (t : List Byte) (m : lorawan.MACPayload)
    (h : lorawan.MACPayload.UnmarshalBinary uplink (a0 :: a1 :: a2 :: a3 :: f :: t) = .ok m) :
    2 + (f.val &&& 0x0f) ≤ t.length
      ∧ m.FHDR.DevAddr = [a3, a2, a1, a0]
      ∧ m.FHDR.FCtrl = lorawan.FCtrl.UnmarshalBinary uplink f
      ∧ m.FHDR.FCnt = lorawan.leUint (t.take 2)
      ∧ m.FHDR.FOpts.flatten = (t.drop 2).take (f.val &&& 0x0f)
      ∧ m.FPort = (t.drop (2 + (f.val &&& 0x0f))).head?
      ∧ m.FRMPayload.flatten = (t.drop (2 + (f.val &&& 0x0f))).tail := by
  unfold lorawan.MACPayload.UnmarshalBinary at h
  have hf : (lorawan.FCtrl.UnmarshalBinary uplink f).fOptsLen = f.val &&& 0x0f := rfl
  simp only [List.getD_cons_succ, List.getD_cons_zero, List.length_cons, hf] at h
  by_cases h1 : t.length + 1 + 1 + 1 + 1 + 1 < 7
  · simp [h1] at h
  · by_cases h2 : t.length + 1 + 1 + 1 + 1 + 1 < 7 + (f.val &&& 0x0f)
    · simp [h1, h2] at h
    · simp only [if_neg h1, if_neg h2, Except.ok.injEq] at h
      subst h
      have hd7 : ∀ k, (a0 :: a1 :: a2 :: a3 :: f :: t).drop (7 + k) = t.drop (2 + k) := by
        intro k
        have : 7 + k = (2 + k) + 5 := by omega
        rw [this]
        rfl
      have hd7' : (a0 :: a1 :: a2 :: a3 :: f :: t).drop 7 = t.drop 2 := hd7 0
      refine ⟨by omega, rfl, rfl, rfl, ?_, ?_, ?_⟩
      · simp only [hd7', flatten_opaque]
      · simp only [hd7]
      · simp only [hd7, flatten_opaque]

set_option maxRecDepth 100000 in
theorem fctrl_bit7_ignores_bit4 (f : Byte) : (f.val ||| 0x10) &&& 0x80 = f.val &&& 0x80 := by
  revert f
  decide

set_option maxRecDepth 100000 in
theorem fctrl_bit6_ignores_bit4 (f : Byte) : (f.val ||| 0x10) &&& 0x40 = f.val &&& 0x40 := by
  revert f
  decide

set_option maxRecDepth 100000 in
theorem fctrl_bit5_ignores_bit4 (f : Byte) : (f.val ||| 0x10) &&& 0x20 = f.val &&& 0x20 := by
  revert f
  decide

set_option maxRecDepth 100000 in
theorem fctrl_low_ignores_bit4 (f : Byte) : (f.val ||| 0x10) &&& 0x0f = f.val &&& 0x0f := by
  revert f
  decide

set_option maxRecDepth 100000 in
theorem fctrl_bit6_testBit (f : Byte) : (f.val &&& 0x40 != 0) = f.val.testBit 6 := by
  revert f
  decide

theorem FCtrl_downlink_ignores_bit4 (f f' : Byte) (h : f'.val ||| 0x10 = f.val ||| 0x10) :
    lorawan.FCtrl.UnmarshalBinary false f' = lorawan.FCtrl.UnmarshalBinary false f := by
  have h7 : f'.val &&& 0x80 = f.val &&& 0x80 := by
    rw [← fctrl_bit7_ignores_bit4 f', ← fctrl_bit7_ignores_bit4 f, h]
  have h6 : f'.val &&& 0x40 = f.val &&& 0x40 := by
    rw [← fctrl_bit6_ignores_bit4 f', ← fctrl_bit6_ignores_bit4 f, h]
  have h5 : f'.val &&& 0x20 = f.val &&& 0x20 := by
    rw [← fctrl_bit5_ignores_bit4 f', ← fctrl_bit5_ignores_bit4 f, h]
  have hl : f'.val &&& 0x0f = f.val &&& 0x0f := by
    rw [← fctrl_low_ignores_bit4 f', ← fctrl_low_ignores_bit4 f, h]
  simp only [lorawan.FCtrl.UnmarshalBinary, h7, h6, h5, hl, Bool.false_and]

theorem MHDR_MType (h0 : Byte) (m : lorawan.MHDR)
    (h : lorawan.MHDR.UnmarshalBinary h0 = .ok m) : m.MType = h0.val >>> 5 := by
  have ht := MHDR_UnmarshalBinary_table h0 m h
  have hlt : h0.val >>> 5 < 8 := by
    have := h0.isLt
    simp only [Nat.shiftRight_eq_div_pow]
    omega
  revert ht
  generalize h0.val >>> 5 = k at hlt
  interval_cases k <;> intro ht <;>
    simp only [lorawan.mtypeTable, List.get?, Option.some.injEq] at ht <;> rw [← ht] <;> rfl

theorem decodePHYPayload_uplink (c : Content) (p : lorawan.PHYPayload) (b0 : Byte)
    (rest : List Byte) (hraw : c.RawPacket = b0 :: rest)
    (hty : p.MHDR.MType = lorawan.UnconfirmedDataUp ∨ p.MHDR.MType = lorawan.ConfirmedDataUp) :
    decodePHYPayload c p
      = some ({ setHeader c p b0 with
                PHYPayload := { (setHeader c p b0).PHYPayload with
                  MACPayload := some (decodeUplinkMACPayload p).1 } },
          (decodeUplinkMACPayload p).2) := by
  have h0 : p.MHDR.MType ≠ lorawan.JoinRequest := by
    rcases hty with h | h <;> rw [h] <;> decide
  have h1 : p.MHDR.MType ≠ lorawan.JoinAccept := by
    rcases hty with h | h <;> rw [h] <;> decide
  simp only [decodePHYPayload, hraw, if_neg h0, if_neg h1, if_pos hty]

theorem decodePHYPayload_downlink (c : Content) (p : lorawan.PHYPayload) (b0 : Byte)
    (rest : List Byte) (hraw : c.RawPacket = b0 :: rest)
    (hty : p.MHDR.MType = lorawan.UnconfirmedDataDown
      ∨ p.MHDR.MType = lorawan.ConfirmedDataDown) :
    decodePHYPayload c p
      = some ({ setHeader c p b0 with
                PHYPayload := { (setHeader c p b0).PHYPayload with
                  MACPayload := some (decodeDownlinkMACPayload p).1 } },
          (decodeDownlinkMACPayload p).2) := by
  have h0 : p.MHDR.MType ≠ lorawan.JoinRequest := by
    rcases hty with h | h <;> rw [h] <;> decide
  have h1 : p.MHDR.MType ≠ lorawan.JoinAccept := by
    rcases hty with h | h <;> rw [h] <;> decide
  have h2 : ¬ (p.MHDR.MType = lorawan.UnconfirmedDataUp
      ∨ p.MHDR.MType = lorawan.ConfirmedDataUp) := by
    rcases hty with h | h <;> rw [h] <;> decide
  simp only [decodePHYPayload, hraw, if_neg h0, if_neg h1, if_neg h2, if_pos hty]

theorem MACPayload_UnmarshalBinary_eq (uplink : Bool) (a0 a1 a2 a3 f : Byte) (t : List Byte) :
    lorawan.MACPayload.UnmarshalBinary uplink (a0 :: a1 :: a2 :: a3 :: f :: t)
      = if t.length < 2 + (f.val &&& 0x0f) then .error "MalformedFrame"
        else .ok
          { FHDR :=
              { DevAddr := [a3, a2, a1, a0]
                FCtrl := lorawan.FCtrl.UnmarshalBinary uplink f
                FCnt := lorawan.leUint (t.take 2)
                FOpts := if ((t.drop 2).take (f.val &&& 0x0f)).isEmpty then []
                  else [(t.drop 2).take (f.val &&& 0x0f)] }
            FPort := (t.drop (2 + (f.val &&& 0x0f))).head?
            FRMPayload := if (t.drop (2 + (f.val &&& 0x0f))).tail.isEmpty then []
              else [(t.drop (2 + (f.val &&& 0x0f))).tail] } := by
  unfold lorawan.MACPayload.UnmarshalBinary
  have hf : (lorawan.FCtrl.UnmarshalBinary uplink f).fOptsLen = f.val &&& 0x0f := rfl
  have hd7 : ∀ k, (a0 :: a1 :: a2 :: a3 :: f :: t).drop (7 + k) = t.drop (2 + k) := by
    intro k
    have : 7 + k = (2 + k) + 5 := by omega
    rw [this]
    rfl
  have hd7' : (a0 :: a1 :: a2 :: a3 :: f :: t).drop 7 = t.drop 2 := hd7 0
  simp only [List.getD_cons_succ, List.getD_cons_zero, List.length_cons, hf, hd7, hd7']
  by_cases h2 : t.length < 2 + (f.val &&& 0x0f)
  · have h2' : t.length + 1 + 1 + 1 + 1 + 1 < 7 + (f.val &&& 0x0f) := by omega
    simp only [if_pos h2, if_pos h2', ite_self]
  · have h1' : ¬ t.length + 1 + 1 + 1 + 1 + 1 < 7 := by omega
    have h2' : ¬ t.length + 1 + 1 + 1 + 1 + 1 < 7 + (f.val &&& 0x0f) := by omega
    simp only [if_neg h2, if_neg h1', if_neg h2']
    rfl

theorem MACPayload_downlink_ignores_bit4 (a0 a1 a2 a3 f f' : Byte) (t : List Byte)
    (h : f'.val ||| 0x10 = f.val ||| 0x10) :
    lorawan.MACPayload.UnmarshalBinary false (a0 :: a1 :: a2 :: a3 :: f' :: t)
      = lorawan.MACPayload.UnmarshalBinary false (a0 :: a1 :: a2 :: a3 :: f :: t) := by
  have hl : f'.val &&& 0x0f = f.val &&& 0x0f := by
    rw [← fctrl_low_ignores_bit4 f', ← fctrl_low_ignores_bit4 f, h]
  rw [MACPayload_UnmarshalBinary_eq, MACPayload_UnmarshalBinary_eq,
    FCtrl_downlink_ignores_bit4 f f' h, hl]

theorem UnmarshalBinary_downlink_ignores_bit4 (h a0 a1 a2 a3 f f' : Byte) (tail : List Byte)
    (hty : h.val >>> 5 = 3 ∨ h.val >>> 5 = 5) (hbit : f'.val ||| 0x10 = f.val ||| 0x10) :
    lorawan.PHYPayload.UnmarshalBinary (h :: a0 :: a1 :: a2 :: a3 :: f' :: tail)
      = lorawan.PHYPayload.UnmarshalBinary (h :: a0 :: a1 :: a2 :: a3 :: f :: tail) := by
  by_cases hshort : tail.length + 6 < 12
  · rw [UnmarshalBinary_short _ (by simpa using hshort),
      UnmarshalBinary_short _ (by simpa using hshort)]
  · have h4 : 4 ≤ tail.length := by omega
    have hb := body_take a0 a1 a2 a3 f tail h4
    have hb' := body_take a0 a1 a2 a3 f' tail h4
    have hm := MACPayload_downlink_ignores_bit4 a0 a1 a2 a3 f f' (tail.take (tail.length - 4)) hbit
    have hk : (a0 :: a1 :: a2 :: a3 :: f :: tail).length - 4 = (tail.length - 4) + 5 := by
      simp only [List.length_cons]
      omega
    have hk' : (a0 :: a1 :: a2 :: a3 :: f' :: tail).length - 4 = (tail.length - 4) + 5 := by
      simp only [List.length_cons]
      omega
    have hd : (a0 :: a1 :: a2 :: a3 :: f :: tail).drop
        ((a0 :: a1 :: a2 :: a3 :: f :: tail).length - 4) = tail.drop (tail.length - 4) := by
      rw [hk]
      rfl
    have hd' : (a0 :: a1 :: a2 :: a3 :: f' :: tail).drop
        ((a0 :: a1 :: a2 :: a3 :: f' :: tail).length - 4) = tail.drop (tail.length - 4) := by
      rw [hk']
      rfl
    have hn : ¬ (h :: a0 :: a1 :: a2 :: a3 :: f :: tail).length < 12 := by
      simpa using hshort
    have hn' : ¬ (h :: a0 :: a1 :: a2 :: a3 :: f' :: tail).length < 12 := by
      simpa using hshort
    unfold lorawan.PHYPayload.UnmarshalBinary
    simp only [if_neg hn, if_neg hn', hb, hb', hd, hd']
    rcases hty with h3 | h5
    · have hmh : lorawan.MHDR.UnmarshalBinary h
          = .ok { MType := lorawan.UnconfirmedDataDown, Major := h.val &&& 3 } := by
        simp only [lorawan.MHDR.UnmarshalBinary, h3]
        rfl
      simp only [hmh, hm]
      rfl
    · have hmh : lorawan.MHDR.UnmarshalBinary h
          = .ok { MType := lorawan.ConfirmedDataDown, Major := h.val &&& 3 } := by
        simp only [lorawan.MHDR.UnmarshalBinary, h5]
        rfl
      simp only [hmh, hm]
      rfl

/-- A 12-byte unconfirmed downlink frame with frame control 0x40 (bit 6 set, bit 4
clear). -/
def sampleDownlink : List Byte :=
  [0x60, 0x01, 0x02, 0x03, 0x04, 0x40, 0x05, 0x00, 0xde, 0xad, 0xbe, 0xef]

/-- C14: for every downlink data frame (unconfirmed 011 or confirmed 101) decoded
successfully, the decoded FPending flag equals bit 6 of the frame-control byte `f`, and
bit 4 has no effect: the frame with any `f'` that agrees with `f` outside bit 4 parses to
the same payload and decodes, without error, to the same record. -/
theorem downlink_fpending_bit6 (h a0 a1 a2 a3 f f' : Byte) (tail : List Byte)
    (p : lorawan.PHYPayload) (c : Content)
    (hty : h.val >>> 5 = 3 ∨ h.val >>> 5 = 5)
    (hp : lorawan.PHYPayload.UnmarshalBinary (h :: a0 :: a1 :: a2 :: a3 :: f :: tail) = .ok p)
    (hd : decodePHYPayload { RawPacket := h :: a0 :: a1 :: a2 :: a3 :: f :: tail } p
      = some (c, none))
    (hbit : f'.val ||| 0x10 = f.val ||| 0x10) :
    (∃ mp, c.PHYPayload.MACPayload = some mp
        ∧ mp.FHDR.FCtrl.FPending = some (f.val.testBit 6))
      ∧ ∃ c', lorawan.PHYPayload.UnmarshalBinary (h :: a0 :: a1 :: a2 :: a3 :: f' :: tail)
            = .ok p
          ∧ decodePHYPayload { RawPacket := h :: a0 :: a1 :: a2 :: a3 :: f' :: tail } p
            = some (c', none)
          ∧ c'.PHYPayload = c.PHYPayload := by
  obtain ⟨h0, rest, hb, hlen, hmh, -, -, hdown⟩ := UnmarshalBinary_ok _ p hp
  simp only [List.cons.injEq] at hb
  obtain ⟨hh, hrest⟩ := hb
  subst hh
  subst hrest
  have hmt := MHDR_MType h p.MHDR hmh
  have htyp : p.MHDR.MType = lorawan.UnconfirmedDataDown
      ∨ p.MHDR.MType = lorawan.ConfirmedDataDown := by
    rcases hty with h3 | h5
    · exact Or.inl (by rw [hmt, h3]; rfl)
    · exact Or.inr (by rw [hmt, h5]; rfl)
  obtain ⟨m, hm, hpl⟩ := hdown htyp
  simp only [List.length_cons] at hlen
  rw [body_take a0 a1 a2 a3 f tail (by omega)] at hm
  obtain ⟨-, -, hfc, -⟩ := MACPayload_UnmarshalBinary_cons false a0 a1 a2 a3 f _ m hm
  rw [decodePHYPayload_downlink _ p h _ rfl htyp] at hd
  simp only [Option.some.injEq, Prod.mk.injEq] at hd
  obtain ⟨hc, herr⟩ := hd
  subst hc
  have hp' : lorawan.PHYPayload.UnmarshalBinary (h :: a0 :: a1 :: a2 :: a3 :: f' :: tail)
      = .ok p := by
    rw [UnmarshalBinary_downlink_ignores_bit4 h a0 a1 a2 a3 f f' tail hty hbit, hp]
  have hd' := decodePHYPayload_downlink
    { RawPacket := h :: a0 :: a1 :: a2 :: a3 :: f' :: tail } p h _ rfl htyp
  rw [herr] at hd'
  refine ⟨⟨_, rfl, ?_⟩, _, hp', hd', rfl⟩
  simp only [decodeDownlinkMACPayload, hpl, hfc, lorawan.FCtrl.UnmarshalBinary,
    fctrl_bit6_testBit, Bool.not_false, Bool.true_and]

/-- The parsed form of `sampleDownlink`. -/
def sampleDownlinkParsed : lorawan.PHYPayload :=
  { MHDR := { MType := lorawan.UnconfirmedDataDown }
    MACPayload := lorawan.Payload.MACPayload
      { FHDR := { DevAddr := [4, 3, 2, 1], FCtrl := { FPending := true }, FCnt := 5 } }
    MIC := [0xde, 0xad, 0xbe, 0xef] }

/-- The content `decodePHYPayload` produces for `sampleDownlink`. -/
def sampleDownlinkContent : Content :=
  { PHYPayload :=
      { MHDR := { MType := "UnconfirmedDataDown", RFU := "0", Major := "LoRaWANR1" }
        MACPayload := some
          { FHDR := { DevAddr := "04030201", FCtrl := { FPending := some true }, FCnt := 5 } }
        MIC := "deadbeef" }
    RawPacket := sampleDownlink }

theorem downlink_fpending_bit6_witness :
    (∃ mp, sampleDownlinkContent.PHYPayload.MACPayload = some mp
        ∧ mp.FHDR.FCtrl.FPending = some ((0x40 : Byte).val.testBit 6))
      ∧ ∃ c', lorawan.PHYPayload.UnmarshalBinary
            (0x60 :: 0x01 :: 0x02 :: 0x03 :: 0x04 :: 0x50 :: [0x05, 0x00, 0xde, 0xad, 0xbe, 0xef])
            = .ok sampleDownlinkParsed
          ∧ decodePHYPayload
              { RawPacket := 0x60 :: 0x01 :: 0x02 :: 0x03 :: 0x04 :: 0x50
                  :: [0x05, 0x00, 0xde, 0xad, 0xbe, 0xef] }
              sampleDownlinkParsed = some (c', none)
          ∧ c'.PHYPayload = sampleDownlinkContent.PHYPayload :=
  downlink_fpending_bit6 0x60 0x01 0x02 0x03 0x04 0x40 0x50 [0x05, 0x00, 0xde, 0xad, 0xbe, 0xef]
    sampleDownlinkParsed sampleDownlinkContent (by decide) rfl rfl (by decide)

/-- A parsed join-accept frame whose payload has the dynamic type `*DataPayload`: the
twelve body bytes of `sampleJoinAccept`, left opaque. -/
def sampleJoinAcceptOpaque : lorawan.PHYPayload :=
  { MHDR := { MType := lorawan.JoinAccept }
    MACPayload := lorawan.Payload.DataPayload
      [0x01, 0x02, 0x03, 0x04, 0x05, 0x06, 0x07, 0x08, 0x09, 0x0a, 0x11, 0x01]
    MIC := [0xde, 0xad, 0xbe, 0xef] }

theorem decodeJoinRequest_zero (p : lorawan.PHYPayload) (e : String)
    (h : (decodeJoinRequest p).2 = some e) : (decodeJoinRequest p).1 = {} := by
  unfold decodeJoinRequest at h ⊢
  split <;> simp_all

theorem decodeJoinAccept_zero (p : lorawan.PHYPayload) (e : String)
    (h : (decodeJoinAccept p).2 = some e) : (decodeJoinAccept p).1 = {} := by
  unfold decodeJoinAccept at h ⊢
  split <;> simp_all

theorem decodeUplinkMACPayload_zero (p : lorawan.PHYPayload) (e : String)
    (h : (decodeUplinkMACPayload p).2 = some e) : (decodeUplinkMACPayload p).1 = {} := by
  unfold decodeUplinkMACPayload at h ⊢
  split <;> simp_all

theorem decodeDownlinkMACPayload_zero (p : lorawan.PHYPayload) (e : String)
    (h : (decodeDownlinkMACPayload p).2 = some e) : (decodeDownlinkMACPayload p).1 = {} := by
  unfold decodeDownlinkMACPayload at h ⊢
  split <;> simp_all

theorem decodeJoinRequest_shape (p : lorawan.PHYPayload) (e : String)
    (h : (decodeJoinRequest p).2 = some e) :
    ∀ j, p.MACPayload ≠ lorawan.Payload.JoinRequestPayload j := by
  intro j hj
  simp [decodeJoinRequest, hj] at h

theorem decodeJoinAccept_shape (p : lorawan.PHYPayload) (e : String)
    (h : (decodeJoinAccept p).2 = some e) :
    ∀ j, p.MACPayload ≠ lorawan.Payload.JoinAcceptPayload j := by
  intro j hj
  simp [decodeJoinAccept, hj] at h

theorem decodeUplinkMACPayload_shape (p : lorawan.PHYPayload) (e : String)
    (h : (decodeUplinkMACPayload p).2 = some e) :
    ∀ m, p.MACPayload ≠ lorawan.Payload.MACPayload m := by
  intro m hm
  simp [decodeUplinkMACPayload, hm] at h

theorem decodeDownlinkMACPayload_shape (p : lorawan.PHYPayload) (e : String)
    (h : (decodeDownlinkMACPayload p).2 = some e) :
    ∀ m, p.MACPayload ≠ lorawan.Payload.MACPayload m := by
  intro m hm
  simp [decodeDownlinkMACPayload, hm] at h

/-- The content `decodePHYPayload` produces for `sampleJoinAcceptOpaque` on the raw packet
`sampleJoinAccept`: the header, the MIC and a zero-valued JoinAccept record. -/
def sampleJoinAcceptOpaqueContent : Content :=
  { PHYPayload :=
      { MHDR := { MType := "JoinAccept", RFU := "0", Major := "LoRaWANR1" }
        JoinAccept := some {}
        MIC := "deadbeef" }
    RawPacket := sampleJoinAccept }

/-- C15, as stated, fails: on a fresh Content and the parsed join-accept
`sampleJoinAcceptOpaque`, whose payload has not the shape of a join-accept payload,
`decodePHYPayload` returns the type-assertion error and the Content holds a non-nil,
zero-valued JoinAccept record. -/
theorem error_with_populated_record :
    decodePHYPayload { RawPacket := sampleJoinAccept } sampleJoinAcceptOpaque
        = some (sampleJoinAcceptOpaqueContent,
            some "lorawan: MACPayload value must be of type *JoinAcceptPayload")
      ∧ sampleJoinAcceptOpaqueContent.PHYPayload.JoinAccept = some {}
      ∧ sampleJoinAcceptOpaqueContent.PHYPayload.JoinAccept ≠ none :=
  ⟨rfl, rfl, by simp [sampleJoinAcceptOpaqueContent]⟩

/-- C15, amended: whenever `decodePHYPayload`, called on a fresh Content, returns an error,
either the message type is none of the six decodable ones and all three sub-records are
unpopulated, or the payload has not the runtime shape of its message type and exactly the
sub-record of that message type is populated, with the zero-valued record the
type-specific decoder returned together with the error. -/
theorem error_record_state (b0 : Byte) (rest : List Byte) (p : lorawan.PHYPayload)
    (c : Content) (e : String)
    (h : decodePHYPayload { RawPacket := b0 :: rest } p = some (c, some e)) :
    (p.MHDR.MType = lorawan.JoinRequest
        ∧ (∀ j, p.MACPayload ≠ lorawan.Payload.JoinRequestPayload j)
        ∧ c.PHYPayload.JoinRequest = some {}
        ∧ c.PHYPayload.JoinAccept = none ∧ c.PHYPayload.MACPayload = none)
      ∨ (p.MHDR.MType = lorawan.JoinAccept
        ∧ (∀ j, p.MACPayload ≠ lorawan.Payload.JoinAcceptPayload j)
        ∧ c.PHYPayload.JoinAccept = some {}
        ∧ c.PHYPayload.JoinRequest = none ∧ c.PHYPayload.MACPayload = none)
      ∨ ((p.MHDR.MType = lorawan.UnconfirmedDataUp ∨ p.MHDR.MType = lorawan.ConfirmedDataUp
          ∨ p.MHDR.MType = lorawan.UnconfirmedDataDown
          ∨ p.MHDR.MType = lorawan.ConfirmedDataDown)
        ∧ (∀ m, p.MACPayload ≠ lorawan.Payload.MACPayload m)
        ∧ c.PHYPayload.MACPayload = some {}
        ∧ c.PHYPayload.JoinRequest = none ∧ c.PHYPayload.JoinAccept = none)
      ∨ (p.MHDR.MType ≠ lorawan.JoinRequest ∧ p.MHDR.MType ≠ lorawan.JoinAccept
        ∧ p.MHDR.MType ≠ lorawan.UnconfirmedDataUp ∧ p.MHDR.MType ≠ lorawan.ConfirmedDataUp
        ∧ p.MHDR.MType ≠ lorawan.UnconfirmedDataDown
        ∧ p.MHDR.MType ≠ lorawan.ConfirmedDataDown
        ∧ c.PHYPayload.JoinRequest = none ∧ c.PHYPayload.JoinAccept = none
        ∧ c.PHYPayload.MACPayload = none) := by
  unfold decodePHYPayload at h
  simp only at h
  split_ifs at h with h1 h2 h3 h4 h5 h6 <;>
    simp only [Option.some.injEq, Prod.mk.injEq] at h <;> obtain ⟨hc, he⟩ := h <;> subst hc
  · exact Or.inl ⟨h1, decodeJoinRequest_shape p e he,
      by simp only [decodeJoinRequest_zero p e he], rfl, rfl⟩
  · exact Or.inr (Or.inl ⟨h2, decodeJoinAccept_shape p e he,
      by simp only [decodeJoinAccept_zero p e he], rfl, rfl⟩)
  · exact Or.inr (Or.inr (Or.inl ⟨by tauto, decodeUplinkMACPayload_shape p e he,
      by simp only [decodeUplinkMACPayload_zero p e he], rfl, rfl⟩))
  · exact Or.inr (Or.inr (Or.inl ⟨by tauto, decodeDownlinkMACPayload_shape p e he,
      by simp only [decodeDownlinkMACPayload_zero p e he], rfl, rfl⟩))
  · exact Or.inr (Or.inr (Or.inr ⟨h1, h2, by tauto, by tauto, by tauto, by tauto,
      rfl, rfl, rfl⟩))
  · exact Or.inr (Or.inr (Or.inr ⟨h1, h2, by tauto, by tauto, by tauto, by tauto,
      rfl, rfl, rfl⟩))
  · exact Or.inr (Or.inr (Or.inr ⟨h1, h2, by tauto, by tauto, by tauto, by tauto,
      rfl, rfl, rfl⟩))

theorem error_record_state_witness :
    (sampleJoinAcceptOpaque.MHDR.MType = lorawan.JoinRequest
        ∧ (∀ j, sampleJoinAcceptOpaque.MACPayload ≠ lorawan.Payload.JoinRequestPayload j)
        ∧ sampleJoinAcceptOpaqueContent.PHYPayload.JoinRequest = some {}
        ∧ sampleJoinAcceptOpaqueContent.PHYPayload.JoinAccept = none
        ∧ sampleJoinAcceptOpaqueContent.PHYPayload.MACPayload = none)
      ∨ (sampleJoinAcceptOpaque.MHDR.MType = lorawan.JoinAccept
        ∧ (∀ j, sampleJoinAcceptOpaque.MACPayload ≠ lorawan.Payload.JoinAcceptPayload j)
        ∧ sampleJoinAcceptOpaqueContent.PHYPayload.JoinAccept = some {}
        ∧ sampleJoinAcceptOpaqueContent.PHYPayload.JoinRequest = none
        ∧ sampleJoinAcceptOpaqueContent.PHYPayload.MACPayload = none)
      ∨ ((sampleJoinAcceptOpaque.MHDR.MType = lorawan.UnconfirmedDataUp
          ∨ sampleJoinAcceptOpaque.MHDR.MType = lorawan.ConfirmedDataUp
          ∨ sampleJoinAcceptOpaque.MHDR.MType = lorawan.UnconfirmedDataDown
          ∨ sampleJoinAcceptOpaque.MHDR.MType = lorawan.ConfirmedDataDown)
        ∧ (∀ m, sampleJoinAcceptOpaque.MACPayload ≠ lorawan.Payload.MACPayload m)
        ∧ sampleJoinAcceptOpaqueContent.PHYPayload.MACPayload = some {}
        ∧ sampleJoinAcceptOpaqueContent.PHYPayload.JoinRequest = none
        ∧ sampleJoinAcceptOpaqueContent.PHYPayload.JoinAccept = none)
      ∨ (sampleJoinAcceptOpaque.MHDR.MType ≠ lorawan.JoinRequest
        ∧ sampleJoinAcceptOpaque.MHDR.MType ≠ lorawan.JoinAccept
        ∧ sampleJoinAcceptOpaque.MHDR.MType ≠ lorawan.UnconfirmedDataUp
        ∧ sampleJoinAcceptOpaque.MHDR.MType ≠ lorawan.ConfirmedDataUp
        ∧ sampleJoinAcceptOpaque.MHDR.MType ≠ lorawan.UnconfirmedDataDown
        ∧ sampleJoinAcceptOpaque.MHDR.MType ≠ lorawan.ConfirmedDataDown
        ∧ sampleJoinAcceptOpaqueContent.PHYPayload.JoinRequest = none
        ∧ sampleJoinAcceptOpaqueContent.PHYPayload.JoinAccept = none
        ∧ sampleJoinAcceptOpaqueContent.PHYPayload.MACPayload = none) :=
  error_record_state 0x20
    [0x01, 0x02, 0x03, 0x04, 0x05, 0x06, 0x07, 0x08, 0x09, 0x0a, 0x11, 0x01, 0xde, 0xad,
     0xbe, 0xef]
    sampleJoinAcceptOpaque sampleJoinAcceptOpaqueContent
    "lorawan: MACPayload value must be of type *JoinAcceptPayload" rfl

/-- C16: whenever `decodePHYPayload`, called on a fresh Content, returns no error, exactly
one of the three sub-records is populated and it is the one of the message type:
JoinRequest for Join-Request, JoinAccept for Join-Accept, MACPayload for the four
uplink and downlink data types. -/
theorem success_populates_exactly_one (b0 : Byte) (rest : List Byte)
    (p : lorawan.PHYPayload) (c : Content)
    (h : decodePHYPayload { RawPacket := b0 :: rest } p = some (c, none)) :
    (p.MHDR.MType = lorawan.JoinRequest
        ∧ c.PHYPayload.JoinRequest = some (decodeJoinRequest p).1
        ∧ c.PHYPayload.JoinAccept = none ∧ c.PHYPayload.MACPayload = none)
      ∨ (p.MHDR.MType = lorawan.JoinAccept
        ∧ c.PHYPayload.JoinAccept = some (decodeJoinAccept p).1
        ∧ c.PHYPayload.JoinRequest = none ∧ c.PHYPayload.MACPayload = none)
      ∨ ((p.MHDR.MType = lorawan.UnconfirmedDataUp ∨ p.MHDR.MType = lorawan.ConfirmedDataUp)
        ∧ c.PHYPayload.MACPayload = some (decodeUplinkMACPayload p).1
        ∧ c.PHYPayload.JoinRequest = none ∧ c.PHYPayload.JoinAccept = none)
      ∨ ((p.MHDR.MType = lorawan.UnconfirmedDataDown
          ∨ p.MHDR.MType = lorawan.ConfirmedDataDown)
        ∧ c.PHYPayload.MACPayload = some (decodeDownlinkMACPayload p).1
        ∧ c.PHYPayload.JoinRequest = none ∧ c.PHYPayload.JoinAccept = none) := by
  unfold decodePHYPayload at h
  simp only at h
  split_ifs at h with h1 h2 h3 h4 h5 h6 <;>
    simp only [Option.some.injEq, Prod.mk.injEq, reduceCtorEq, and_false] at h
  · obtain ⟨hc, -⟩ := h
    subst hc
    exact Or.inl ⟨h1, rfl, rfl, rfl⟩
  · obtain ⟨hc, -⟩ := h
    subst hc
    exact Or.inr (Or.inl ⟨h2, rfl, rfl, rfl⟩)
  · obtain ⟨hc, -⟩ := h
    subst hc
    exact Or.inr (Or.inr (Or.inl ⟨h3, rfl, rfl, rfl⟩))
  · obtain ⟨hc, -⟩ := h
    subst hc
    exact Or.inr (Or.inr (Or.inr ⟨h4, rfl, rfl, rfl⟩))

theorem success_populates_exactly_one_witness :
    (sampleDownlinkParsed.MHDR.MType = lorawan.JoinRequest
        ∧ sampleDownlinkContent.PHYPayload.JoinRequest
            = some (decodeJoinRequest sampleDownlinkParsed).1
        ∧ sampleDownlinkContent.PHYPayload.JoinAccept = none
        ∧ sampleDownlinkContent.PHYPayload.MACPayload = none)
      ∨ (sampleDownlinkParsed.MHDR.MType = lorawan.JoinAccept
        ∧ sampleDownlinkContent.PHYPayload.JoinAccept
            = some (decodeJoinAccept sampleDownlinkParsed).1
        ∧ sampleDownlinkContent.PHYPayload.JoinRequest = none
        ∧ sampleDownlinkContent.PHYPayload.MACPayload = none)
      ∨ ((sampleDownlinkParsed.MHDR.MType = lorawan.UnconfirmedDataUp
          ∨ sampleDownlinkParsed.MHDR.MType = lorawan.ConfirmedDataUp)
        ∧ sampleDownlinkContent.PHYPayload.MACPayload
            = some (decodeUplinkMACPayload sampleDownlinkParsed).1
        ∧ sampleDownlinkContent.PHYPayload.JoinRequest = none
        ∧ sampleDownlinkContent.PHYPayload.JoinAccept = none)
      ∨ ((sampleDownlinkParsed.MHDR.MType = lorawan.UnconfirmedDataDown
          ∨ sampleDownlinkParsed.MHDR.MType = lorawan.ConfirmedDataDown)
        ∧ sampleDownlinkContent.PHYPayload.MACPayload
            = some (decodeDownlinkMACPayload sampleDownlinkParsed).1
        ∧ sampleDownlinkContent.PHYPayload.JoinRequest = none
        ∧ sampleDownlinkContent.PHYPayload.JoinAccept = none) :=
  success_populates_exactly_one 0x60
    [0x01, 0x02, 0x03, 0x04, 0x40, 0x05, 0x00, 0xde, 0xad, 0xbe, 0xef]
    sampleDownlinkParsed sampleDownlinkContent rfl

/-- C20: on every parsed frame the uplink and the downlink decoder return the same error
(so they fail on exactly the same inputs), and their records agree on DevAddr, FCnt, ADR,
ACK, FOptsLen, FOpts.Payload, FPort and FRMPayload (and on the unused RFU): erasing the
three direction flags makes the two records equal. -/
theorem uplink_downlink_agree (p : lorawan.PHYPayload) :
    (decodeUplinkMACPayload p).2 = (decodeDownlinkMACPayload p).2
      ∧ ((decodeUplinkMACPayload p).2 = none ↔ (decodeDownlinkMACPayload p).2 = none)
      ∧ (decodeUplinkMACPayload p).1.FHDR.DevAddr = (decodeDownlinkMACPayload p).1.FHDR.DevAddr
      ∧ (decodeUplinkMACPayload p).1.FHDR.FCnt = (decodeDownlinkMACPayload p).1.FHDR.FCnt
      ∧ (decodeUplinkMACPayload p).1.FHDR.FCtrl.ADR
          = (decodeDownlinkMACPayload p).1.FHDR.FCtrl.ADR
      ∧ (decodeUplinkMACPayload p).1.FHDR.FCtrl.ACK
          = (decodeDownlinkMACPayload p).1.FHDR.FCtrl.ACK
      ∧ (decodeUplinkMACPayload p).1.FHDR.FCtrl.FOptsLen
          = (decodeDownlinkMACPayload p).1.FHDR.FCtrl.FOptsLen
      ∧ (decodeUplinkMACPayload p).1.FHDR.FOpts.Payload
          = (decodeDownlinkMACPayload p).1.FHDR.FOpts.Payload
      ∧ (decodeUplinkMACPayload p).1.FPort = (decodeDownlinkMACPayload p).1.FPort
      ∧ (decodeUplinkMACPayload p).1.FRMPayload = (decodeDownlinkMACPayload p).1.FRMPayload
      ∧ { (decodeUplinkMACPayload p).1 with
            FHDR := { (decodeUplinkMACPayload p).1.FHDR with
              FCtrl := { (decodeUplinkMACPayload p).1.FHDR.FCtrl with
                ADRACKReq := none, FPending := none, ClassB := none } } }
          = { (decodeDownlinkMACPayload p).1 with
            FHDR := { (decodeDownlinkMACPayload p).1.FHDR with
              FCtrl := { (decodeDownlinkMACPayload p).1.FHDR.FCtrl with
                ADRACKReq := none, FPending := none, ClassB := none } } } := by
  unfold decodeUplinkMACPayload decodeDownlinkMACPayload
  cases p.MACPayload <;> simp

theorem appendAll_flatten (items : List (List Byte)) : appendAll items = items.flatten := by
  have h : ∀ (acc : List Byte) (l : List (List Byte)),
      List.foldl (fun out b => out ++ b) acc l = acc ++ l.flatten := by
    intro acc l
    induction l generalizing acc with
    | nil => simp
    | cons x xs ih => simp [ih]
  simpa [appendAll] using h [] items

theorem list_five (l : List Byte) (h : 5 ≤ l.length) :
    ∃ a0 a1 a2 a3 f tail, l = a0 :: a1 :: a2 :: a3 :: f :: tail := by
  match l, h with
  | a0 :: a1 :: a2 :: a3 :: f :: tail, _ => exact ⟨a0, a1, a2, a3, f, tail, rfl⟩

/-- C17: for every uplink or downlink data frame decoded successfully, FOpts.Payload is the
lowercase hex of the concatenation of the parsed frame-options items, which are the
frame-options-length bytes following the frame counter (frame bytes 8 onwards), and
FRMPayload is the lowercase hex of the concatenation of the parsed payload items, which
are all body bytes after the port byte and before the MIC. -/
theorem options_and_payload_raw_hex (b : List Byte) (p : lorawan.PHYPayload) (c : Content)
    (hty : p.MHDR.MType = lorawan.UnconfirmedDataUp ∨ p.MHDR.MType = lorawan.ConfirmedDataUp
      ∨ p.MHDR.MType = lorawan.UnconfirmedDataDown ∨ p.MHDR.MType = lorawan.ConfirmedDataDown)
    (hp : lorawan.PHYPayload.UnmarshalBinary b = .ok p)
    (hd : decodePHYPayload { RawPacket := b } p = some (c, none)) :
    ∃ m mp, p.MACPayload = lorawan.Payload.MACPayload m
      ∧ c.PHYPayload.MACPayload = some mp
      ∧ mp.FHDR.FOpts.Payload = hex.EncodeToString m.FHDR.FOpts.flatten
      ∧ mp.FRMPayload = hex.EncodeToString m.FRMPayload.flatten
      ∧ m.FHDR.FOpts.flatten = (b.drop 8).take ((b.getD 5 0).val &&& 0x0f)
      ∧ m.FRMPayload.flatten
          = (b.drop (9 + ((b.getD 5 0).val &&& 0x0f))).take
              (b.length - 4 - (9 + ((b.getD 5 0).val &&& 0x0f))) := by
  obtain ⟨h0, rest, hb, hlen, -, -, hup, hdown⟩ := UnmarshalBinary_ok b p hp
  subst hb
  simp only [List.length_cons] at hlen
  obtain ⟨a0, a1, a2, a3, f, tail, hrest⟩ := list_five rest (by omega)
  subst hrest
  simp only [List.length_cons] at hlen
  have hparse : ∃ uplink m, lorawan.MACPayload.UnmarshalBinary uplink
        (a0 :: a1 :: a2 :: a3 :: f :: tail.take (tail.length - 4)) = .ok m
      ∧ p.MACPayload = lorawan.Payload.MACPayload m := by
    by_cases hu : p.MHDR.MType = lorawan.UnconfirmedDataUp
        ∨ p.MHDR.MType = lorawan.ConfirmedDataUp
    · obtain ⟨m, hm, hpl⟩ := hup hu
      rw [body_take a0 a1 a2 a3 f tail (by omega)] at hm
      exact ⟨true, m, hm, hpl⟩
    · obtain ⟨m, hm, hpl⟩ := hdown (by tauto)
      rw [body_take a0 a1 a2 a3 f tail (by omega)] at hm
      exact ⟨false, m, hm, hpl⟩
  obtain ⟨uplink, m, hm, hpl⟩ := hparse
  obtain ⟨hn, -, -, -, hfo, -, hfrm⟩ := MACPayload_UnmarshalBinary_cons uplink a0 a1 a2 a3 f _ m hm
  simp only [List.length_take] at hn
  have hdec : ∃ mp, c.PHYPayload.MACPayload = some mp
      ∧ mp.FHDR.FOpts.Payload = hex.EncodeToString m.FHDR.FOpts.flatten
      ∧ mp.FRMPayload = hex.EncodeToString m.FRMPayload.flatten := by
    by_cases hu : p.MHDR.MType = lorawan.UnconfirmedDataUp
        ∨ p.MHDR.MType = lorawan.ConfirmedDataUp
    · rw [decodePHYPayload_uplink _ p h0 _ rfl hu] at hd
      simp only [Option.some.injEq, Prod.mk.injEq] at hd
      obtain ⟨hc, -⟩ := hd
      subst hc
      refine ⟨_, rfl, ?_, ?_⟩ <;> simp [decodeUplinkMACPayload, hpl, appendAll_flatten]
    · have hdn : p.MHDR.MType = lorawan.UnconfirmedDataDown
          ∨ p.MHDR.MType = lorawan.ConfirmedDataDown := by tauto
      rw [decodePHYPayload_downlink _ p h0 _ rfl hdn] at hd
      simp only [Option.some.injEq, Prod.mk.injEq] at hd
      obtain ⟨hc, -⟩ := hd
      subst hc
      refine ⟨_, rfl, ?_, ?_⟩ <;> simp [decodeDownlinkMACPayload, hpl, appendAll_flatten]
  obtain ⟨mp, hmp, h1, h2⟩ := hdec
  refine ⟨m, mp, hpl, hmp, h1, h2, ?_, ?_⟩
  · rw [hfo]
    have hb8 : (h0 :: a0 :: a1 :: a2 :: a3 :: f :: tail).drop 8 = tail.drop 2 := rfl
    have hg : (h0 :: a0 :: a1 :: a2 :: a3 :: f :: tail).getD 5 0 = f := rfl
    rw [hb8, hg, List.drop_take, List.take_take]
    congr 1
    omega
  · rw [hfrm]
    have hg : (h0 :: a0 :: a1 :: a2 :: a3 :: f :: tail).getD 5 0 = f := rfl
    have hb9 : (h0 :: a0 :: a1 :: a2 :: a3 :: f :: tail).drop (9 + (f.val &&& 0x0f))
        = tail.drop (3 + (f.val &&& 0x0f)) := by
      have : 9 + (f.val &&& 0x0f) = (3 + (f.val &&& 0x0f)) + 6 := by omega
      rw [this]
      rfl
    rw [hg, hb9, List.tail_drop, List.drop_take]
    simp only [List.length_cons]
    congr 1
    · omega
    · congr 1
      omega

/-- The parsed form of `sampleUplinkOptions`. -/
def sampleUplinkOptionsParsed : lorawan.PHYPayload :=
  { MHDR := { MType := lorawan.UnconfirmedDataUp }
    MACPayload := lorawan.Payload.MACPayload
      { FHDR :=
          { DevAddr := [4, 3, 2, 1], FCtrl := { ADR := true, fOptsLen := 2 }, FCnt := 5
            FOpts := [[0xa1, 0xa2]] }
        FPort := some 10
        FRMPayload := [[0x99, 0x98]] }
    MIC := [0xde, 0xad, 0xbe, 0xef] }

/-- The content `decodePHYPayload` produces for `sampleUplinkOptions`. -/
def sampleUplinkOptionsContent : Content :=
  { PHYPayload :=
      { MHDR := { MType := "UnconfirmedDataUp", RFU := "0", Major := "LoRaWANR1" }
        MACPayload := some
          { FHDR :=
              { DevAddr := "04030201"
                FCtrl := { ADR := true, ADRACKReq := some false, ClassB := some false }
                FCnt := 5
                FOpts := { Payload := "a1a2" } }
            FPort := 10
            FRMPayload := "9998" }
        MIC := "deadbeef" }
    RawPacket := sampleUplinkOptions }

theorem options_and_payload_raw_hex_witness :
    ∃ m mp, sampleUplinkOptionsParsed.MACPayload = lorawan.Payload.MACPayload m
      ∧ sampleUplinkOptionsContent.PHYPayload.MACPayload = some mp
      ∧ mp.FHDR.FOpts.Payload = hex.EncodeToString m.FHDR.FOpts.flatten
      ∧ mp.FRMPayload = hex.EncodeToString m.FRMPayload.flatten
      ∧ m.FHDR.FOpts.flatten
          = (sampleUplinkOptions.drop 8).take ((sampleUplinkOptions.getD 5 0).val &&& 0x0f)
      ∧ m.FRMPayload.flatten
          = (sampleUplinkOptions.drop (9 + ((sampleUplinkOptions.getD 5 0).val &&& 0x0f))).take
              (sampleUplinkOptions.length - 4
                - (9 + ((sampleUplinkOptions.getD 5 0).val &&& 0x0f))) :=
  options_and_payload_raw_hex sampleUplinkOptions sampleUplinkOptionsParsed
    sampleUplinkOptionsContent (Or.inl rfl) rfl rfl

/-- C19: with the frame parser, `PHYPayloadMarshalToText` returns on every input, the
empty one included, without an out-of-bounds read.  The parser fails on the empty input;
when any parser fails the text is returned before `decodePHYPayload` is called; when the
frame parser succeeds the input is non-empty and `decodePHYPayload` returns.  On an empty
packet the read `RawPacket[0]` itself would panic. -/
theorem no_out_of_bounds_read :
    (∀ b, ∃ r, PHYPayloadMarshalToText lorawan.PHYPayload.UnmarshalBinary b = some r)
      ∧ PHYPayloadMarshalToText lorawan.PHYPayload.UnmarshalBinary []
          = some ("", some "MalformedFrame")
      ∧ (∀ (unmarshal : List Byte → Except String lorawan.PHYPayload) b e,
          unmarshal b = .error e → PHYPayloadMarshalToText unmarshal b = some ("", some e))
      ∧ (∀ b p, lorawan.PHYPayload.UnmarshalBinary b = .ok p →
          b ≠ [] ∧ ∃ r, decodePHYPayload { RawPacket := b } p = some r)
      ∧ (∀ p, decodePHYPayload { RawPacket := [] } p = none) := by
  have hok : ∀ b p, lorawan.PHYPayload.UnmarshalBinary b = .ok p →
      b ≠ [] ∧ ∃ r, decodePHYPayload { RawPacket := b } p = some r := by
    intro b p hp
    obtain ⟨h0, rest, hb, -⟩ := UnmarshalBinary_ok b p hp
    subst hb
    exact ⟨by simp, decodePHYPayload_total _ p h0 rest rfl⟩
  refine ⟨?_, ?_, ?_, hok, fun p => rfl⟩
  · intro b
    cases hu : lorawan.PHYPayload.UnmarshalBinary b with
    | error e => exact ⟨("", some e), by simp only [PHYPayloadMarshalToText, hu]⟩
    | ok p =>
      obtain ⟨-, r, hr⟩ := hok b p hu
      obtain ⟨c, e⟩ := r
      cases e with
      | some e => exact ⟨("", some e), by simp only [PHYPayloadMarshalToText, hu, hr]⟩
      | none => exact ⟨(c.String, none), by simp only [PHYPayloadMarshalToText, hu, hr]⟩
  · simp only [PHYPayloadMarshalToText, UnmarshalBinary_short [] (by decide)]
  · intro unmarshal b e hu
    simp only [PHYPayloadMarshalToText, hu]

end decode

namespace ui

/-- The hex of `decode.sampleJoinRequest` followed by the non-hex character z. -/
def sampleBadHex : String := "0001020304050607081112131415161718aabbdeadbeefz"

/-- The hex of `decode.sampleJoinRequest` followed by one more hex digit: an odd number of
digits. -/
def sampleOddHex : String := "0001020304050607081112131415161718aabbdeadbeef0"

set_option maxRecDepth 1000000 in
/-- C18, on the code: `run` does not return after a hex error.  On `sampleBadHex` and on
`sampleOddHex`, `hex.DecodeString` reports an error and still returns the 23 bytes decoded
before it, which are a valid join-request frame; `run` first sets the "decode error" text
and then replaces it with the decoded frame content, which is what the output area finally
shows. -/
theorem run_shows_content_after_hex_error :
    hex.DecodeString sampleBadHex = (decode.sampleJoinRequest, some "encoding/hex: invalid byte")
      ∧ run lorawan.PHYPayload.UnmarshalBinary sampleBadHex
          = some ["decode error encoding/hex: invalid byte\n",
              String.mk (lfToCrlf (crlfToLf decode.sampleJoinRequestText.data))]
      ∧ hex.DecodeString sampleOddHex
          = (decode.sampleJoinRequest, some "encoding/hex: odd length hex string")
      ∧ run lorawan.PHYPayload.UnmarshalBinary sampleOddHex
          = some ["decode error encoding/hex: odd length hex string\n",
              String.mk (lfToCrlf (crlfToLf decode.sampleJoinRequestText.data))]
      ∧ (lfToCrlf (crlfToLf decode.sampleJoinRequestText.data)).take 12 ≠ "decode error".data
      ∧ (lfToCrlf (crlfToLf decode.sampleJoinRequestText.data)).take 16
          = "Raw PHYPayload: ".data := by
  refine ⟨by decide, by decide, by decide, by decide, by decide, by decide⟩

end ui
